import Mathlib

/-!
Verification development for the hex_physics repository (2D convex-polygon
collision detection and resolution).

Coordinates are modelled as rationals (`ℚ`) in place of `f32`: every concrete
input used below is exactly representable in binary floating point and the
algorithms use only field operations and order comparisons, which ℚ mirrors.

The file has two parts:
* an embedding of `src/collider.rs` (the `Collider` struct with its
  SAT `intersecting` test returning `bool`);
* an embedding of `src/physics_manager.rs` (`detect`, `resolve`,
  `check_collisions`, `update_positions`, `clear_collisions` and the
  `System::update` frame entry point), together with models of the
  collaborating types that the repository defines outside these two files
  (the richer `Collider` with layers/ignore/ghost/boundary and an
  MTV-returning `intersecting`, `Physical`, `Box2d`, `QuadTree`), which are
  modelled from the specification as documented on each definition.
-/

/-- Two-dimensional vector over ℚ, mirroring `Vector2<f32>` / `Vec2d`. -/
structure Vec2 where
  x : ℚ
  y : ℚ
deriving DecidableEq, Repr

instance : Add Vec2 :=
  ⟨fun a b => ⟨a.x + b.x, a.y + b.y⟩⟩

instance : Neg Vec2 :=
  ⟨fun a => ⟨-a.x, -a.y⟩⟩

instance : HMul Vec2 ℚ Vec2 :=
  ⟨fun a q => ⟨a.x * q, a.y * q⟩⟩

instance : HDiv Vec2 ℚ Vec2 :=
  ⟨fun a q => ⟨a.x / q, a.y / q⟩⟩

@[simp]
theorem Vec2.add_x (a b : Vec2) : (a + b).x = a.x + b.x := rfl

@[simp]
theorem Vec2.add_y (a b : Vec2) : (a + b).y = a.y + b.y := rfl

@[simp]
theorem Vec2.neg_x (a : Vec2) : (-a).x = -a.x := rfl

@[simp]
theorem Vec2.neg_y (a : Vec2) : (-a).y = -a.y := rfl

@[simp]
theorem Vec2.mul_x (a : Vec2) (q : ℚ) : (a * q).x = a.x * q := rfl

@[simp]
theorem Vec2.mul_y (a : Vec2) (q : ℚ) : (a * q).y = a.y * q := rfl

@[simp]
theorem Vec2.div_x (a : Vec2) (q : ℚ) : (a / q).x = a.x / q := rfl

@[simp]
theorem Vec2.div_y (a : Vec2) (q : ℚ) : (a / q).y = a.y / q := rfl

/-- The external `hex` transform, as the spec describes it: a world position
plus (when rotation is modelled) a matrix taking local shape points to world
points, and an `active` flag read by the detection pass.  We model the matrix
as an affine map: linear part `[[m00, m01], [m10, m11]]` followed by the
translation `pos`; `matrix() * p.extend(1.0)).truncate()` is `apply`. -/
structure Transform where
  m00 : ℚ
  m01 : ℚ
  m10 : ℚ
  m11 : ℚ
  pos : Vec2
  active : Bool
deriving DecidableEq, Repr

/-- Application of the transform matrix to a local point, mirroring
`(transform.matrix() * p.extend(1.0)).truncate()`. -/
def Transform.apply (t : Transform) (p : Vec2) : Vec2 :=
  ⟨t.m00 * p.x + t.m01 * p.y + t.pos.x, t.m10 * p.x + t.m11 * p.y + t.pos.y⟩

/-- `Transform::position()`. -/
def Transform.position (t : Transform) : Vec2 :=
  t.pos

/-- `Transform::set_position`. -/
def Transform.set_position (t : Transform) (p : Vec2) : Transform :=
  { t with pos := p }

/-- A pure translation transform (identity linear part), used for concrete
test fixtures. -/
def Transform.translation (v : Vec2) : Transform :=
  ⟨1, 0, 0, 1, v, true⟩

/-! ## Embedding of `src/collider.rs` -/

/-- `Collider` exactly as defined in `src/collider.rs`: local-space polygon
`points`, recorded `collisions` (entity ids), and an `active` flag. -/
structure Collider where
  points : List Vec2
  collisions : List Nat
  active : Bool
deriving DecidableEq, Repr

/-- `Collider::new` from `src/collider.rs`: stores the points unchanged (no
validation) and starts with an empty collision list. -/
def Collider.new (points : List Vec2) (active : Bool) : Collider :=
  ⟨points, [], active⟩

/-- `Collider::rect` from `src/collider.rs`. -/
def Collider.rect (dims : Vec2) (active : Bool) : Collider :=
  Collider.new
    [⟨-(dims.x / 2), -(dims.y / 2)⟩, ⟨-(dims.x / 2), dims.y / 2⟩,
      ⟨dims.x / 2, dims.y / 2⟩, ⟨dims.x / 2, -(dims.y / 2)⟩]
    active

/-- The running-minimum fold over projections in `Collider::intersecting`:
`a_min` starts as `None` and is replaced whenever
`a_min.map(|a| projected < a).unwrap_or(true)` holds. -/
def projFoldMin (normal : Vec2) (ps : List Vec2) : Option ℚ :=
  ps.foldl
    (fun acc p =>
      let projected := normal.x * p.x + normal.y * p.y
      if (acc.map fun a => decide (projected < a)).getD true then some projected else acc)
    none

/-- The running-maximum fold over projections in `Collider::intersecting`. -/
def projFoldMax (normal : Vec2) (ps : List Vec2) : Option ℚ :=
  ps.foldl
    (fun acc p =>
      let projected := normal.x * p.x + normal.y * p.y
      if (acc.map fun a => decide (projected > a)).getD true then some projected else acc)
    none

/-- The early-exit condition of the axis loop in `Collider::intersecting`:
`a_max.and_then(|a| b_min.map(|b| a < b)).unwrap_or(true) ||
 b_max.and_then(|b| a_min.map(|a| b < a)).unwrap_or(true)`. -/
def separatedOn (normal : Vec2) (aPts bPts : List Vec2) : Bool :=
  ((projFoldMax normal aPts).bind fun a =>
      (projFoldMin normal bPts).map fun b => decide (a < b)).getD true
    || ((projFoldMax normal bPts).bind fun b =>
        (projFoldMin normal aPts).map fun a => decide (b < a)).getD true

/-- `Collider::intersecting` from `src/collider.rs`: transforms both point
lists to world space, then for each edge of shape A (indices
`i, (i+1) % len` of A's points) builds the edge normal
`(p2.y - p1.y, p1.x - p2.x)`, and returns `false` as soon as the projected
intervals are strictly separated on that axis; returns `true` if no A-edge
axis separates.  Only shape A's edges contribute axes. -/
def Collider.intersecting (self : Collider) (transform : Transform) (b : Collider)
    (bTransform : Transform) : Bool :=
  let aPoints := self.points.map transform.apply
  let bPoints := b.points.map bTransform.apply
  !((List.range aPoints.length).any fun i =>
    let p1 := aPoints.getD i ⟨0, 0⟩
    let p2 := aPoints.getD ((i + 1) % aPoints.length) ⟨0, 0⟩
    let normal : Vec2 := ⟨p2.y - p1.y, p1.x - p2.x⟩
    separatedOn normal aPoints bPoints)

/-! ## Polygons as point sets, and soundness of the separating-axis exit -/

/-- The world-space vertices of a polygon, as a set of points of `ℚ × ℚ`. -/
def vertexSet (ps : List Vec2) : Set (ℚ × ℚ) :=
  {q | ∃ p ∈ ps, (p.x, p.y) = q}

/-- The convex polygon spanned by a vertex list: the convex hull of its
vertices. -/
def polygon (ps : List Vec2) : Set (ℚ × ℚ) :=
  convexHull ℚ (vertexSet ps)

/-- Projection of a point onto an axis vector. -/
def projAxis (n : Vec2) (q : ℚ × ℚ) : ℚ :=
  n.x * q.1 + n.y * q.2

theorem projAxis_isLinearMap (n : Vec2) : IsLinearMap ℚ (projAxis n) := by
  constructor
  · intro a b
    simp [projAxis]
    ring
  · intro c a
    simp [projAxis, Prod.smul_fst, Prod.smul_snd, smul_eq_mul]
    ring

theorem foldl_max_le_self : ∀ (l : List ℚ) (a : ℚ), a ≤ l.foldl max a := by
  intro l
  induction l with
  | nil => intro a; exact le_refl a
  | cons b l ih => intro a; exact le_trans (le_max_left a b) (ih (max a b))

theorem mem_le_foldl_max : ∀ (l : List ℚ) (a x : ℚ), x ∈ l → x ≤ l.foldl max a := by
  intro l
  induction l with
  | nil => intro a x hx; cases hx
  | cons b l ih =>
    intro a x hx
    rcases List.mem_cons.mp hx with hx | hx
    · subst hx
      exact le_trans (le_max_right a x) (foldl_max_le_self l (max a x))
    · exact ih (max a b) x hx

theorem foldl_min_le_self : ∀ (l : List ℚ) (a : ℚ), l.foldl min a ≤ a := by
  intro l
  induction l with
  | nil => intro a; exact le_refl a
  | cons b l ih => intro a; exact le_trans (ih (min a b)) (min_le_left a b)

theorem foldl_min_le_mem : ∀ (l : List ℚ) (a x : ℚ), x ∈ l → l.foldl min a ≤ x := by
  intro l
  induction l with
  | nil => intro a x hx; cases hx
  | cons b l ih =>
    intro a x hx
    rcases List.mem_cons.mp hx with hx | hx
    · subst hx
      exact le_trans (foldl_min_le_self l (min a x)) (min_le_right a x)
    · exact ih (min a b) x hx

theorem projFoldMax_from_some (n : Vec2) :
    ∀ (ps : List Vec2) (a : ℚ),
      ps.foldl
        (fun acc p =>
          let projected := n.x * p.x + n.y * p.y
          if (acc.map fun b => decide (projected > b)).getD true then some projected else acc)
        (some a) = some ((ps.map fun p => n.x * p.x + n.y * p.y).foldl max a) := by
  intro ps
  induction ps with
  | nil => intro a; rfl
  | cons p ps ih =>
    intro a
    simp only [List.foldl_cons, List.map_cons]
    by_cases h : n.x * p.x + n.y * p.y > a
    · rw [if_pos (by simpa using h), ih, max_eq_right (le_of_lt h)]
    · rw [if_neg (by simpa using h), ih, max_eq_left (not_lt.mp h)]

theorem projFoldMin_from_some (n : Vec2) :
    ∀ (ps : List Vec2) (a : ℚ),
      ps.foldl
        (fun acc p =>
          let projected := n.x * p.x + n.y * p.y
          if (acc.map fun b => decide (projected < b)).getD true then some projected else acc)
        (some a) = some ((ps.map fun p => n.x * p.x + n.y * p.y).foldl min a) := by
  intro ps
  induction ps with
  | nil => intro a; rfl
  | cons p ps ih =>
    intro a
    simp only [List.foldl_cons, List.map_cons]
    by_cases h : n.x * p.x + n.y * p.y < a
    · rw [if_pos (by simpa using h), ih, min_eq_right (le_of_lt h)]
    · rw [if_neg (by simpa using h), ih, min_eq_left (not_lt.mp h)]

theorem projFoldMax_cons (n p : Vec2) (ps : List Vec2) :
    projFoldMax n (p :: ps) =
      some ((ps.map fun q => n.x * q.x + n.y * q.y).foldl max (n.x * p.x + n.y * p.y)) := by
  unfold projFoldMax
  simp only [List.foldl_cons]
  exact projFoldMax_from_some n ps _

theorem projFoldMin_cons (n p : Vec2) (ps : List Vec2) :
    projFoldMin n (p :: ps) =
      some ((ps.map fun q => n.x * q.x + n.y * q.y).foldl min (n.x * p.x + n.y * p.y)) := by
  unfold projFoldMin
  simp only [List.foldl_cons]
  exact projFoldMin_from_some n ps _

theorem projFoldMax_some_le (n : Vec2) (ps : List Vec2) (m : ℚ)
    (h : projFoldMax n ps = some m) : ∀ p ∈ ps, n.x * p.x + n.y * p.y ≤ m := by
  cases ps with
  | nil => intro p hp; cases hp
  | cons p ps =>
    rw [projFoldMax_cons] at h
    cases Option.some_injective _ h
    intro q hq
    rcases List.mem_cons.mp hq with hq | hq
    · subst hq
      exact foldl_max_le_self _ _
    · exact mem_le_foldl_max _ _ _ (List.mem_map_of_mem _ hq)

theorem projFoldMin_some_ge (n : Vec2) (ps : List Vec2) (m : ℚ)
    (h : projFoldMin n ps = some m) : ∀ p ∈ ps, m ≤ n.x * p.x + n.y * p.y := by
  cases ps with
  | nil => intro p hp; cases hp
  | cons p ps =>
    rw [projFoldMin_cons] at h
    cases Option.some_injective _ h
    intro q hq
    rcases List.mem_cons.mp hq with hq | hq
    · subst hq
      exact foldl_min_le_self _ _
    · exact foldl_min_le_mem _ _ _ (List.mem_map_of_mem _ hq)

theorem projFoldMax_eq_none (n : Vec2) (ps : List Vec2)
    (h : projFoldMax n ps = none) : ps = [] := by
  cases ps with
  | nil => rfl
  | cons p ps => rw [projFoldMax_cons] at h; cases h

theorem projFoldMin_eq_none (n : Vec2) (ps : List Vec2)
    (h : projFoldMin n ps = none) : ps = [] := by
  cases ps with
  | nil => rfl
  | cons p ps => rw [projFoldMin_cons] at h; cases h

theorem polygon_subset_le (n : Vec2) (m : ℚ) (ps : List Vec2)
    (h : ∀ p ∈ ps, n.x * p.x + n.y * p.y ≤ m) :
    polygon ps ⊆ {q | projAxis n q ≤ m} := by
  apply convexHull_min
  · rintro q ⟨p, hp, rfl⟩
    simpa [projAxis] using h p hp
  · exact convex_halfSpace_le (projAxis_isLinearMap n) m

theorem polygon_subset_ge (n : Vec2) (m : ℚ) (ps : List Vec2)
    (h : ∀ p ∈ ps, m ≤ n.x * p.x + n.y * p.y) :
    polygon ps ⊆ {q | m ≤ projAxis n q} := by
  apply convexHull_min
  · rintro q ⟨p, hp, rfl⟩
    simpa [projAxis] using h p hp
  · exact convex_halfSpace_ge (projAxis_isLinearMap n) m

theorem disjoint_of_proj_bounds (n : Vec2) (a b : ℚ) (psA psB : List Vec2)
    (hA : ∀ p ∈ psA, n.x * p.x + n.y * p.y ≤ a)
    (hB : ∀ p ∈ psB, b ≤ n.x * p.x + n.y * p.y)
    (hab : a < b) :
    Disjoint (polygon psA) (polygon psB) := by
  rw [Set.disjoint_left]
  intro q hqA hqB
  have h1 : projAxis n q ≤ a := polygon_subset_le n a psA hA hqA
  have h2 : b ≤ projAxis n q := polygon_subset_ge n b psB hB hqB
  exact absurd (lt_of_le_of_lt h1 (lt_of_lt_of_le hab h2)) (lt_irrefl _)

theorem polygon_nil : polygon [] = ∅ := by
  have h : vertexSet [] = ∅ := by
    ext q
    simp [vertexSet]
  simp [polygon, h]

theorem separatedOn_disjoint (n : Vec2) (aPts bPts : List Vec2)
    (h : separatedOn n aPts bPts = true) :
    Disjoint (polygon aPts) (polygon bPts) := by
  unfold separatedOn at h
  rcases Bool.or_eq_true_iff.mp h with h | h
  · rcases hA : projFoldMax n aPts with _ | a
    · rw [projFoldMax_eq_none n aPts hA, polygon_nil]
      exact disjoint_bot_left
    · rcases hB : projFoldMin n bPts with _ | b
      · rw [projFoldMin_eq_none n bPts hB, polygon_nil]
        exact disjoint_bot_right
      · rw [hA, hB] at h
        simp at h
        exact disjoint_of_proj_bounds n a b aPts bPts
          (projFoldMax_some_le n aPts a hA)
          (projFoldMin_some_ge n bPts b hB) h
  · rcases hB : projFoldMax n bPts with _ | b
    · rw [projFoldMax_eq_none n bPts hB, polygon_nil]
      exact disjoint_bot_right
    · rcases hA : projFoldMin n aPts with _ | a
      · rw [projFoldMin_eq_none n aPts hA, polygon_nil]
        exact disjoint_bot_left
      · rw [hA, hB] at h
        simp at h
        exact (disjoint_of_proj_bounds n b a bPts aPts
          (projFoldMax_some_le n bPts b hB)
          (projFoldMin_some_ge n aPts a hA) h).symm

/-! ## Concrete fixtures for the legacy-collider claims -/

/-- The identity transform (translation by the origin). -/
def tZero : Transform := Transform.translation ⟨0, 0⟩

/-- Translation by (1, 0). -/
def tOne : Transform := Transform.translation ⟨1, 0⟩

/-- Translation by (3, 0). -/
def tThree : Transform := Transform.translation ⟨3, 0⟩

/-- Unit square with vertices (0,0), (0,1), (1,1), (1,0). -/
def cSquare : Collider := Collider.new [⟨0, 0⟩, ⟨0, 1⟩, ⟨1, 1⟩, ⟨1, 0⟩] true

/-- A triangle beyond the square's top-right corner: all its points satisfy
`x + y ≥ 11/5`, while the square satisfies `x + y ≤ 2`. -/
def cTriangle : Collider := Collider.new [⟨17/10, 1/2⟩, ⟨1/2, 17/10⟩, ⟨17/10, 17/10⟩] true

/-- Unit square centered at the origin, as built by `Collider::rect((1,1))`. -/
def sqUnit : Collider := Collider.rect ⟨1, 1⟩ true

/-- Claim C1, counterexample: the unit square `[0,1]²` and the triangle with
vertices (17/10, 1/2), (1/2, 17/10), (17/10, 17/10) are disjoint convex
polygons (they lie strictly on opposite sides of the line `x + y = 2.1`), yet
`Collider::intersecting` reports them as intersecting, because it only tests
axes derived from shape A's edges (the x and y axes here) and never tests the
triangle's hypotenuse normal, the only separating axis.  This refutes the
claim that the test uses both shapes' edges and reports no intersection
exactly on disjointness. -/
theorem C1_counterexample :
    cSquare.intersecting tZero cTriangle tZero = true ∧
    Disjoint (polygon (cSquare.points.map tZero.apply))
      (polygon (cTriangle.points.map tZero.apply)) := by
  constructor
  · simp [Collider.intersecting, cSquare, cTriangle, tZero, Collider.new,
      Transform.translation, Transform.apply, separatedOn, projFoldMin, projFoldMax,
      List.range_succ]
    norm_num
  · have hmS : cSquare.points.map tZero.apply = cSquare.points := by
      simp [cSquare, Collider.new, tZero, Transform.translation, Transform.apply]
    have hmT : cTriangle.points.map tZero.apply = cTriangle.points := by
      simp [cTriangle, Collider.new, tZero, Transform.translation, Transform.apply]
    rw [hmS, hmT]
    apply disjoint_of_proj_bounds ⟨1, 1⟩ 2 (11/5)
    · intro p hp
      simp [cSquare, Collider.new] at hp
      rcases hp with rfl | rfl | rfl | rfl <;> norm_num
    · intro p hp
      simp [cTriangle, Collider.new] at hp
      rcases hp with rfl | rfl | rfl <;> norm_num
    · norm_num

/-- Claim C1, amended: `Collider::intersecting` derives separating axes only
from shape A's edges, so it is sound but not complete as a disjointness test:
whenever it reports no intersection, the two transformed convex polygons
really are disjoint (the converse fails, see the counterexample). -/
theorem C1_theorem (a : Collider) (ta : Transform) (b : Collider) (tb : Transform)
    (h : a.intersecting ta b tb = false) :
    Disjoint (polygon (a.points.map ta.apply)) (polygon (b.points.map tb.apply)) := by
  unfold Collider.intersecting at h
  rw [Bool.not_eq_false'] at h
  rw [List.any_eq_true] at h
  obtain ⟨i, _hi, hsep⟩ := h
  exact separatedOn_disjoint _ _ _ hsep

/-- Witness for `C1_theorem`: two unit squares three units apart are reported
as non-intersecting, hence are disjoint. -/
theorem C1_witness :
    cSquare.intersecting tZero cSquare tThree = false ∧
    Disjoint (polygon (cSquare.points.map tZero.apply))
      (polygon (cSquare.points.map tThree.apply)) := by
  have h : cSquare.intersecting tZero cSquare tThree = false := by
    simp [Collider.intersecting, cSquare, tZero, tThree, Collider.new,
      Transform.translation, Transform.apply, separatedOn, projFoldMin, projFoldMax,
      List.range_succ]
    norm_num
  exact ⟨h, C1_theorem _ _ _ _ h⟩

/-- Claim C3, counterexample: two unit squares centered at (0,0) and (1,0)
have exactly coincident edges (zero overlap on the x axis), and
`Collider::intersecting` reports them as intersecting — the claim says this
configuration must report no intersection. -/
theorem C3_counterexample : sqUnit.intersecting tZero sqUnit tOne = true := by
  simp [Collider.intersecting, sqUnit, tZero, tOne, Collider.rect, Collider.new,
    Transform.translation, Transform.apply, separatedOn, projFoldMin, projFoldMax,
    List.range_succ]
  norm_num

/-- Claim C3, amended: the separation early-exit uses strict inequality
(`a_max < b_min` / `b_max < a_min`), so a zero-overlap exact touch does not
count as separation and touching shapes are reported as intersecting: two
axis-aligned unit squares offset horizontally by `d` are reported as
intersecting for every `-1 ≤ d ≤ 1`, including the exact-touch offsets
`d = ±1`. -/
theorem C3_theorem (d : ℚ) (h1 : -1 ≤ d) (h2 : d ≤ 1) :
    sqUnit.intersecting tZero sqUnit (Transform.translation ⟨d, 0⟩) = true := by
  simp [Collider.intersecting, sqUnit, tZero, Collider.rect, Collider.new,
    Transform.translation, Transform.apply, separatedOn, projFoldMin, projFoldMax,
    List.range_succ]
  norm_num
  split_ifs <;> simp_all <;>
    first
    | (exfalso; linarith)
    | (exact ⟨⟨by linarith, by linarith⟩, by linarith, by linarith⟩)

/-- Witness for `C3_theorem` at the exact-touch offset `d = 1`. -/
theorem C3_witness :
    (-1 ≤ (1 : ℚ)) ∧ ((1 : ℚ) ≤ 1) ∧
      sqUnit.intersecting tZero sqUnit (Transform.translation ⟨1, 0⟩) = true :=
  ⟨by norm_num, by norm_num, C3_theorem 1 (by norm_num) (by norm_num)⟩

/-- Claim C9, counterexample: a degenerate two-point "polygon" is accepted by
`Collider::new` without any failure and `intersecting` silently computes a
definite answer for it (here `true` against the unit square), instead of
failing fast. -/
theorem C9_counterexample :
    (Collider.new [⟨0, 0⟩, ⟨1, 0⟩] true).points.length < 3 ∧
    (Collider.new [⟨0, 0⟩, ⟨1, 0⟩] true).intersecting tZero cSquare tZero = true := by
  constructor
  · simp [Collider.new]
  · simp [Collider.intersecting, cSquare, tZero, Collider.new,
      Transform.translation, Transform.apply, separatedOn, projFoldMin, projFoldMax,
      List.range_succ]
    norm_num

/-- Claim C9, amended: no degeneracy check exists anywhere: `Collider::new`
stores any point list unchanged (no validation at construction), and
`intersecting` silently computes on degenerate polygons — with an empty
polygon as shape A it returns `true` against every shape, since the axis loop
is vacuous. -/
theorem C9_theorem (pts : List Vec2) (act : Bool) (b : Collider) (t tb : Transform) :
    (Collider.new pts act).points = pts ∧
    (Collider.new [] act).intersecting t b tb = true := by
  constructor
  · rfl
  · simp [Collider.new, Collider.intersecting]

/-! ## Embedding of `src/physics_manager.rs`

The `Collider` component consumed by `physics_manager.rs` (with `layers`,
`ignore`, `ghost`, `boundary` and an MTV-returning `intersecting`), the
`Physical` component, `Box2d` and `QuadTree` belong to the repository but are
not among the given source files; they are modelled from the specification as
stated on each definition.  Everything defined from `physics_manager.rs`
itself (`detect`, `resolve`, `check_collisions`, `update_positions`,
`clear_collisions`, the `System::update` entry point) is translated from that
source.  The external entity/component store is modelled as an association
list from entity id to components (component cache ids coincide with entity
ids); wall-clock time is modelled by passing the frame delta (in seconds) as
an argument. -/

namespace Phys

/-- Modelled from the spec (§3 Collider): the collider component used by
`physics_manager.rs`, which is not among the given source files: convex
polygon `points`, tag sets `layers` and `ignore` (finite tag domain, here
`Nat`), `ghost` flag, broad-phase `boundary` scalar, `active` flag and the
recorded `collisions` entity ids. -/
structure Collider where
  points : List Vec2
  layers : List Nat
  ignore : List Nat
  ghost : Bool
  boundary : ℚ
  active : Bool
  collisions : List Nat
deriving DecidableEq, Repr

/-- Modelled from the spec (§3 Physical): per-entity force, velocity, last
recorded position and an active flag gating integration.  The `Physical`
component is not among the given source files. -/
structure Physical where
  force : Vec2
  velocity : Vec2
  lastPosition : Option Vec2
  active : Bool
deriving DecidableEq, Repr

/-- Edge normals `(dy, -dx)` of a world-space point list (spec §4.1 step 2,
same edge convention as `src/collider.rs`). -/
def edgeNormals (ps : List Vec2) : List Vec2 :=
  (List.range ps.length).map fun i =>
    let p1 := ps.getD i ⟨0, 0⟩
    let p2 := ps.getD ((i + 1) % ps.length) ⟨0, 0⟩
    ⟨p2.y - p1.y, p1.x - p2.x⟩

/-- Modelled from the spec (§4.1 steps 3-4): interval overlap of the two
shapes' projections on one axis.  Returns `none` when the overlap is not
strictly positive (zero-overlap exact touching counts as non-intersecting per
the spec), otherwise the projected overlap amount together with the sign
orienting the MTV so that `-mtv` applied to A and `+mtv` applied to B
separates the interval centers. -/
def axisOverlap (n : Vec2) (aPts bPts : List Vec2) : Option (ℚ × ℚ) :=
  match projFoldMin n aPts, projFoldMax n aPts, projFoldMin n bPts, projFoldMax n bPts with
  | some aMin, some aMax, some bMin, some bMax =>
    let o := min aMax bMax - max aMin bMin
    if 0 < o then some (o, if aMin + aMax ≤ bMin + bMax then 1 else -1) else none
  | _, _, _, _ => none

/-- The per-axis candidates `(axis, overlap, sign)` that produced a strictly
positive overlap. -/
def axisData (aPts bPts : List Vec2) (axes : List Vec2) : List (Vec2 × ℚ × ℚ) :=
  axes.filterMap fun n => (axisOverlap n aPts bPts).map fun os => (n, os)

/-- Modelled from the spec (§4.1): the SAT narrow phase of the `Collider`
used by `physics_manager.rs` (not among the given source files), returning
`Some mtv` on intersection.  Axes are the edge normals of both shapes (A's
edges first, then B's, the spec's tie-break order); if any axis has no
strictly positive projected overlap the shapes are disjoint (`none`).
Otherwise the MTV lies along the axis whose world-space overlap
`overlap / |n|` is smallest (first such axis wins), scaled to that overlap:
`mtv = n * (sign * overlap / |n|^2)`, whose Euclidean length is
`overlap / |n|`.  The axis comparison `o_c/|n_c| < o_best/|n_best|` is
expressed rationally as `o_c^2 * |n_best|^2 < o_best^2 * |n_c|^2`. -/
def intersecting (a : Collider) (ta : Transform) (b : Collider) (tb : Transform) :
    Option Vec2 :=
  let aPts := a.points.map ta.apply
  let bPts := b.points.map tb.apply
  let axes := edgeNormals aPts ++ edgeNormals bPts
  if axes.all fun n => (axisOverlap n aPts bPts).isSome then
    match axisData aPts bPts axes with
    | [] => none
    | d :: ds =>
      let best := ds.foldl
        (fun best c =>
          if c.2.1 * c.2.1 * (best.1.x * best.1.x + best.1.y * best.1.y) <
              best.2.1 * best.2.1 * (c.1.x * c.1.x + c.1.y * c.1.y)
          then c else best) d
      let n := best.1
      some (n * (best.2.2 * best.2.1 / (n.x * n.x + n.y * n.y)))
  else none

/-- `Collision` type alias from `physics_manager.rs`:
`(bool, (Option<Vec2d>, Option<Vec2d>))`. -/
abbrev Collision := Bool × Option Vec2 × Option Vec2

/-- `PhysicsManager::detect` from `physics_manager.rs`: the layer/ignore
eligibility filter followed by the SAT test; on intersection the collision
carries the ghost flag `ac.ghost || bc.ghost` and the per-body corrections
`(-mtv for A if A is physical, +mtv for B if B is physical)`. -/
def detect (a : Collider × Transform × Option Physical)
    (b : Collider × Transform × Option Physical) : Option Collision :=
  if (a.1.layers.any fun l => b.1.layers.contains l)
      && !(a.1.ignore.any fun l => b.1.layers.contains l)
      && !(b.1.ignore.any fun l => a.1.layers.contains l) then
    (intersecting a.1 a.2.1 b.1 b.2.1).map fun m =>
      (a.1.ghost || b.1.ghost, (a.2.2.map fun _ => -m, b.2.2.map fun _ => m))
  else
    none

/-- An entity's components (the slice of the external component store this
core consumes). -/
structure Entity where
  collider : Option Collider
  transform : Option Transform
  physical : Option Physical
deriving DecidableEq, Repr

/-- The entity/component store, modelled as an association list from entity
id to components, in the store's iteration order. -/
structure World where
  entities : List (Nat × Entity)
deriving DecidableEq, Repr

/-- The entity id list, in iteration order (`em.entities.keys()`). -/
def World.keys (w : World) : List Nat :=
  w.entities.map (·.1)

/-- Component lookup by entity id (first entry wins, as in a keyed store). -/
def World.get (w : World) (e : Nat) : Option Entity :=
  (w.entities.find? fun p => decide (p.1 = e)).map (·.2)

def World.collider (w : World) (e : Nat) : Option Collider :=
  (w.get e).bind (·.collider)

def World.transform (w : World) (e : Nat) : Option Transform :=
  (w.get e).bind (·.transform)

def World.physical (w : World) (e : Nat) : Option Physical :=
  (w.get e).bind (·.physical)

/-- Update entity `e`'s components in place. -/
def World.mapEnt (w : World) (e : Nat) (f : Entity → Entity) : World :=
  ⟨w.entities.map fun p => if p.1 = e then (p.1, f p.2) else p⟩

/-- `cm.get_cache_mut::<Collider>` followed by a mutation: apply `f` to
entity `e`'s collider if present. -/
def World.mapCollider (w : World) (e : Nat) (f : Collider → Collider) : World :=
  w.mapEnt e fun ent => { ent with collider := ent.collider.map f }

/-- `cm.get_cache_mut::<Transform>` followed by a mutation. -/
def World.mapTransform (w : World) (e : Nat) (f : Transform → Transform) : World :=
  w.mapEnt e fun ent => { ent with transform := ent.transform.map f }

/-- `cm.get_mut::<Physical>` followed by a mutation. -/
def World.mapPhysical (w : World) (e : Nat) (f : Physical → Physical) : World :=
  w.mapEnt e fun ent => { ent with physical := ent.physical.map f }

/-- `PhysicsManager::resolve` from `physics_manager.rs`: append `other_e` to
the cached collider's `collisions` unless already present; then, when the
collision is not a ghost collision and a translation is provided, shift the
cached transform's position by it. -/
def resolve (ghostCol : Bool) (otherE cacheCollider cacheTransform : Nat)
    (tr : Option Vec2) (w : World) : World :=
  let w' := w.mapCollider cacheCollider fun c =>
    if otherE ∈ c.collisions then c else { c with collisions := c.collisions ++ [otherE] }
  if !ghostCol then
    match tr with
    | some v => w'.mapTransform cacheTransform fun t => t.set_position (t.position + v)
    | none => w'
  else
    w'

end Phys

namespace Phys

instance : Sub Vec2 :=
  ⟨fun a b => ⟨a.x - b.x, a.y - b.y⟩⟩

@[simp]
theorem Vec2.sub_x (a b : Vec2) : (a - b).x = a.x - b.x := rfl

@[simp]
theorem Vec2.sub_y (a b : Vec2) : (a - b).y = a.y - b.y := rfl

/-- Modelled from the spec (§3 AxisAlignedBox): a center point and a scalar
half-extent; `Box2d` is not among the given source files.
`Box2d::new(position, boundary)` in `check_collisions` passes a center and
the collider's scalar `boundary`. -/
structure Box2d where
  center : Vec2
  half : ℚ
deriving DecidableEq, Repr

def Box2d.new (c : Vec2) (h : ℚ) : Box2d :=
  ⟨c, h⟩

/-- Point-in-box test (closed box). -/
def Box2d.containsPoint (b : Box2d) (p : Vec2) : Bool :=
  decide (|p.x - b.center.x| ≤ b.half) && decide (|p.y - b.center.y| ≤ b.half)

/-- Box-box intersection test (closed boxes). -/
def Box2d.intersects (b r : Box2d) : Bool :=
  decide (|b.center.x - r.center.x| ≤ b.half + r.half)
    && decide (|b.center.y - r.center.y| ≤ b.half + r.half)

/-- The payload stored per entity during a detection pass, mirroring the
tuple `(Id, (Id, Collider), (Id, Transform), Option<Physical>)` of
`check_collisions` (component cache ids coincide with entity ids in this
model). -/
abbrev Snapshot := Nat × (Nat × Collider) × (Nat × Transform) × Option Physical

/-- Modelled from the spec (§4.2 SpatialIndex): `QuadTree` is not among the
given source files.  We model the index extensionally by its accepted
`(position-key, payload)` entries — the tree in the regime where the root
bucket holds the entries (subdivision only redistributes entries among child
boxes and does not change which entries are accepted): `insert` accepts a
point exactly when it lies inside the root boundary (returning `false`
otherwise, the documented boundary policy), and `query` returns the stored
payloads whose containing node's boundary intersects the range — at root
granularity an over-approximate candidate set, as §4.2 specifies
(payloads of every node whose boundary meets the range). -/
structure QuadTree where
  boundary : Box2d
  capacity : Nat
  entries : List ((Vec2 × Nat) × Snapshot)
deriving Repr

def QuadTree.new (b : Box2d) (cap : Nat) : QuadTree :=
  ⟨b, cap, []⟩

def QuadTree.insert (t : QuadTree) (key : Vec2 × Nat) (payload : Snapshot) :
    Bool × QuadTree :=
  if t.boundary.containsPoint key.1 then
    (true, { t with entries := t.entries ++ [(key, payload)] })
  else
    (false, t)

def QuadTree.query (t : QuadTree) (range : Box2d) : List Snapshot :=
  if t.boundary.intersects range then t.entries.map (·.2) else []

/-- `PhysicsManager` state from `physics_manager.rs`.  The `frame: Instant`
field is dropped: wall-clock time enters the model as the per-frame `delta`
argument of `update` (already the difference `now - frame`). -/
structure PhysicsManager where
  rate : Nat
  step_amount : Nat
  max_delta : Option ℚ
  bounds : Box2d × Nat
  count : Nat
deriving Repr

/-- The entity-gathering phase of `check_collisions`: keep each entity whose
collider is present and active and whose transform is present and active
(missing components exclude the entity, the absence-as-filter policy), clone
its components as a snapshot, insert it into the fresh quad tree keyed by its
transform position, and keep it in the pass list only if the insert
succeeded. -/
def gather (pm : PhysicsManager) (w : World) : List Snapshot × QuadTree :=
  w.entities.foldl
    (fun st p =>
      let (acc, tree) := st
      let (e, ent) := p
      match ent.collider, ent.transform with
      | some col, some tr =>
        if col.active && tr.active then
          let snap : Snapshot := (e, (e, col), (e, tr), ent.physical)
          let (ok, tree') := tree.insert (tr.position, e) snap
          (if ok then acc ++ [snap] else acc, tree')
        else
          (acc, tree)
      | _, _ => (acc, tree))
    ([], QuadTree.new pm.bounds.1 pm.bounds.2)

/-- State of the candidate-filtering phase: the `checked` pair list behind
the `RwLock`, the collected `found` collisions, and `evals` — a ghost log
(pure instrumentation, it influences nothing) recording each invocation of
`detect` as `(ordered pair, did it produce a collision)`. -/
structure PassState where
  checked : List (Nat × Nat)
  evals : List ((Nat × Nat) × Bool)
  found : List ((Nat × Nat × Nat) × (Nat × Nat × Nat) × Collision)
deriving Repr

/-- One candidate examination in `check_collisions`, mirroring the body of
the inner `filter_map`: if the pair is already checked (either order) the
pair is pushed again onto `checked` and nothing is produced; otherwise
`detect` runs — and when it returns `None`, the `?` operator exits the
closure **before** the `checked.write().push((ae, be))` statement, so the
pair is *not* recorded as checked; only a successful detection both records
the pair and produces an output. -/
def candidateStep (a b : Snapshot) (s : PassState) : PassState :=
  let ae := a.1
  let be := b.1
  if (ae, be) ∈ s.checked ∨ (be, ae) ∈ s.checked then
    { s with checked := s.checked ++ [(ae, be)] }
  else
    match detect (a.2.1.2, a.2.2.1.2, a.2.2.2) (b.2.1.2, b.2.2.1.2, b.2.2.2) with
    | none => { s with evals := s.evals ++ [((ae, be), false)] }
    | some col =>
      { s with
          checked := s.checked ++ [(ae, be)],
          evals := s.evals ++ [((ae, be), true)],
          found := s.found ++ [((ae, a.2.1.1, a.2.2.1.1), (be, b.2.1.1, b.2.2.1.1), col)] }

/-- The candidate-filtering phase of `check_collisions` over all snapshots
(the `par_iter` modelled in its sequential iteration order): each snapshot
queries the tree with its own broad-phase box and examines every candidate
in query order. -/
def runPass (tree : QuadTree) (snaps : List Snapshot) : PassState :=
  snaps.foldl
    (fun s a =>
      (tree.query (Box2d.new a.2.2.1.2.position a.2.1.2.boundary)).foldl
        (fun s b => candidateStep a b s) s)
    ⟨[], [], []⟩

/-- `PhysicsManager::check_collisions` from `physics_manager.rs`, with the
ghost `evals` log returned alongside the world: gather + insert into a fresh
quad tree, run the candidate phase, then resolve each found collision in
order — first the B side (`resolve(ghost, ae, bc, bt, btr)`), then the A side
(`resolve(ghost, be, ac, at, atr)`). -/
def check_collisionsFull (pm : PhysicsManager) (w : World) :
    World × List ((Nat × Nat) × Bool) :=
  let st := gather pm w
  let s := runPass st.2 st.1
  let w' := s.found.foldl
    (fun w item =>
      let w := resolve item.2.2.1 item.1.1 item.2.1.2.1 item.2.1.2.2 item.2.2.2.2 w
      resolve item.2.2.1 item.2.1.1 item.1.2.1 item.1.2.2 item.2.2.2.1 w)
    w
  (w', s.evals)

/-- `PhysicsManager::check_collisions` (world effect only). -/
def check_collisions (pm : PhysicsManager) (w : World) : World :=
  (check_collisionsFull pm w).1

/-- The `Physical` bookkeeping at the end of one entity's turn in
`update_positions`: recompute velocity from the realized displacement when a
last position exists, then store the new last position. -/
def bookkeep (e : Nat) (pos : Vec2) (delta : ℚ) (w : World) : World :=
  w.mapPhysical e fun p =>
    let p' :=
      match p.lastPosition with
      | some l => { p with velocity := (pos - l) / delta }
      | none => p
    { p' with lastPosition := some pos }

/-- One entity's turn in `update_positions`: requires an active `Physical`
(yielding `force`) and a transform id; with sub-stepping
(`step_amount = some n`) it shifts the position by `force * delta / n`, runs
a **full** `check_collisions` pass (counted in the second component), and
reads the position back after the pass; without sub-stepping it shifts by
`force * delta` and runs no detection.  Either way the `Physical`
bookkeeping follows. -/
def posStep (pm : PhysicsManager) (stepAmount : Option Nat) (delta : ℚ) (e : Nat)
    (w : World) (cnt : Nat) : World × Nat :=
  match (w.physical e).bind fun p => if p.active then some p.force else none with
  | none => (w, cnt)
  | some force =>
    match w.transform e with
    | none => (w, cnt)
    | some _ =>
      match stepAmount with
      | some n =>
        let w1 := w.mapTransform e fun t =>
          t.set_position (t.position + (force * delta) / (n : ℚ))
        let w2 := check_collisions pm w1
        match (w2.transform e).map Transform.position with
        | some pos => (bookkeep e pos delta w2, cnt + 1)
        | none => (w2, cnt + 1)
      | none =>
        let w1 := w.mapTransform e fun t => t.set_position (t.position + force * delta)
        match (w1.transform e).map Transform.position with
        | some pos => (bookkeep e pos delta w1, cnt)
        | none => (w1, cnt)

/-- `PhysicsManager::update_positions` from `physics_manager.rs`, returning
also the number of detection passes run (0 when `stepAmount` is `none`).
The iteration is over the entity key list taken up front
(`em.entities.keys()`), with fresh component lookups each turn. -/
def update_positions (pm : PhysicsManager) (stepAmount : Option Nat) (delta : ℚ)
    (w : World) : World × Nat :=
  w.keys.foldl (fun wc e => posStep pm stepAmount delta e wc.1 wc.2) (w, 0)

/-- `PhysicsManager::clear_collisions` from `physics_manager.rs`: clear the
`collisions` list of every active collider. -/
def clear_collisions (w : World) : World :=
  w.keys.foldl
    (fun w e =>
      match w.collider e with
      | some c =>
        if c.active then w.mapCollider e fun c => { c with collisions := [] } else w
      | none => w)
    w

/-- The sub-step loop `for _ in 0..self.step_amount`, accumulating the
detection-pass count. -/
def stepLoop (pm : PhysicsManager) (delta : ℚ) : Nat → World × Nat → World × Nat
  | 0, wc => wc
  | n + 1, wc =>
    let r := update_positions pm (some pm.step_amount) delta wc.1
    stepLoop pm delta n (r.1, wc.2 + r.2)

/-- `System::update` for `PhysicsManager` (the `MainEventsCleared` arm),
with wall time abstracted into the `delta` argument (seconds): clamp the
delta by `max_delta`; if the counter has reached `rate`, zero the counter,
clear collisions, and run `step_amount` sub-step iterations; otherwise run a
single full-delta integration without detection; finally increment the
counter.  Returns the new manager state, the new world, and the total number
of detection passes run this frame. -/
def update (pm : PhysicsManager) (delta : ℚ) (w : World) :
    PhysicsManager × World × Nat :=
  let delta' :=
    match pm.max_delta with
    | some md => min delta md
    | none => delta
  let r :=
    if pm.rate ≤ pm.count then
      let pm' : PhysicsManager := { pm with count := 0 }
      let w' := clear_collisions w
      let s := stepLoop pm' delta' pm'.step_amount (w', 0)
      (pm', s.1, s.2)
    else
      let s := update_positions pm none delta' w
      (pm, s.1, s.2)
  ({ r.1 with count := r.1.count + 1 }, r.2.1, r.2.2)

end Phys

namespace Phys

/-! ### Frame lemmas for the world model -/

theorem World.get_mapEnt_aux :
    ∀ (l : List (Nat × Entity)) (e : Nat) (f : Entity → Entity) (e' : Nat),
      (World.mk (l.map fun p => if p.1 = e then (p.1, f p.2) else p)).get e'
        = ((World.mk l).get e').map fun ent => if e' = e then f ent else ent := by
  intro l
  induction l with
  | nil => intro e f e'; rfl
  | cons p l ih =>
    intro e f e'
    have hkey : (if p.1 = e then (p.1, f p.2) else p).1 = p.1 := by
      by_cases hpe : p.1 = e <;> simp [hpe]
    by_cases hp : p.1 = e'
    · unfold World.get
      simp only [List.map_cons]
      rw [List.find?_cons_of_pos _ (by simp only [hkey]; simp [hp]),
          List.find?_cons_of_pos _ (by simp [hp])]
      by_cases hpe : p.1 = e
      · have he : e' = e := hp.symm.trans hpe
        simp [hpe, he]
      · have he : ¬ e' = e := fun h => hpe (hp.trans h)
        simp [hpe, he]
    · unfold World.get
      simp only [List.map_cons]
      rw [List.find?_cons_of_neg _ (by simp only [hkey]; simp [hp]),
          List.find?_cons_of_neg _ (by simp [hp])]
      exact ih e f e'

theorem World.get_mapEnt (w : World) (e : Nat) (f : Entity → Entity) (e' : Nat) :
    (w.mapEnt e f).get e' = (w.get e').map fun ent => if e' = e then f ent else ent := by
  obtain ⟨l⟩ := w
  exact World.get_mapEnt_aux l e f e'

@[simp]
theorem World.keys_mapEnt (w : World) (e : Nat) (f : Entity → Entity) :
    (w.mapEnt e f).keys = w.keys := by
  obtain ⟨l⟩ := w
  unfold World.mapEnt World.keys
  simp only [List.map_map]
  apply List.map_congr_left
  intro p _
  by_cases hpe : p.1 = e <;> simp [hpe]

@[simp]
theorem World.keys_mapCollider (w : World) (e : Nat) (f : Collider → Collider) :
    (w.mapCollider e f).keys = w.keys :=
  World.keys_mapEnt w e _

@[simp]
theorem World.keys_mapTransform (w : World) (e : Nat) (f : Transform → Transform) :
    (w.mapTransform e f).keys = w.keys :=
  World.keys_mapEnt w e _

@[simp]
theorem World.keys_mapPhysical (w : World) (e : Nat) (f : Physical → Physical) :
    (w.mapPhysical e f).keys = w.keys :=
  World.keys_mapEnt w e _

theorem World.collider_mapCollider (w : World) (e : Nat) (f : Collider → Collider) (e' : Nat) :
    (w.mapCollider e f).collider e'
      = if e' = e then (w.collider e').map f else w.collider e' := by
  unfold World.mapCollider World.collider
  rw [World.get_mapEnt]
  cases hg : w.get e' with
  | none => by_cases he : e' = e <;> simp [he]
  | some ent => by_cases he : e' = e <;> simp [he]

@[simp]
theorem World.transform_mapCollider (w : World) (e : Nat) (f : Collider → Collider) (e' : Nat) :
    (w.mapCollider e f).transform e' = w.transform e' := by
  unfold World.mapCollider World.transform
  rw [World.get_mapEnt]
  cases hg : w.get e' with
  | none => by_cases he : e' = e <;> simp [he]
  | some ent => by_cases he : e' = e <;> simp [he]

@[simp]
theorem World.physical_mapCollider (w : World) (e : Nat) (f : Collider → Collider) (e' : Nat) :
    (w.mapCollider e f).physical e' = w.physical e' := by
  unfold World.mapCollider World.physical
  rw [World.get_mapEnt]
  cases hg : w.get e' with
  | none => by_cases he : e' = e <;> simp [he]
  | some ent => by_cases he : e' = e <;> simp [he]

theorem World.transform_mapTransform (w : World) (e : Nat) (f : Transform → Transform)
    (e' : Nat) :
    (w.mapTransform e f).transform e'
      = if e' = e then (w.transform e').map f else w.transform e' := by
  unfold World.mapTransform World.transform
  rw [World.get_mapEnt]
  cases hg : w.get e' with
  | none => by_cases he : e' = e <;> simp [he]
  | some ent => by_cases he : e' = e <;> simp [he]

@[simp]
theorem World.collider_mapTransform (w : World) (e : Nat) (f : Transform → Transform)
    (e' : Nat) :
    (w.mapTransform e f).collider e' = w.collider e' := by
  unfold World.mapTransform World.collider
  rw [World.get_mapEnt]
  cases hg : w.get e' with
  | none => by_cases he : e' = e <;> simp [he]
  | some ent => by_cases he : e' = e <;> simp [he]

@[simp]
theorem World.physical_mapTransform (w : World) (e : Nat) (f : Transform → Transform)
    (e' : Nat) :
    (w.mapTransform e f).physical e' = w.physical e' := by
  unfold World.mapTransform World.physical
  rw [World.get_mapEnt]
  cases hg : w.get e' with
  | none => by_cases he : e' = e <;> simp [he]
  | some ent => by_cases he : e' = e <;> simp [he]

theorem World.physical_mapPhysical (w : World) (e : Nat) (f : Physical → Physical)
    (e' : Nat) :
    (w.mapPhysical e f).physical e'
      = if e' = e then (w.physical e').map f else w.physical e' := by
  unfold World.mapPhysical World.physical
  rw [World.get_mapEnt]
  cases hg : w.get e' with
  | none => by_cases he : e' = e <;> simp [he]
  | some ent => by_cases he : e' = e <;> simp [he]

@[simp]
theorem World.collider_mapPhysical (w : World) (e : Nat) (f : Physical → Physical)
    (e' : Nat) :
    (w.mapPhysical e f).collider e' = w.collider e' := by
  unfold World.mapPhysical World.collider
  rw [World.get_mapEnt]
  cases hg : w.get e' with
  | none => by_cases he : e' = e <;> simp [he]
  | some ent => by_cases he : e' = e <;> simp [he]

@[simp]
theorem World.transform_mapPhysical (w : World) (e : Nat) (f : Physical → Physical)
    (e' : Nat) :
    (w.mapPhysical e f).transform e' = w.transform e' := by
  unfold World.mapPhysical World.transform
  rw [World.get_mapEnt]
  cases hg : w.get e' with
  | none => by_cases he : e' = e <;> simp [he]
  | some ent => by_cases he : e' = e <;> simp [he]

end Phys

namespace Phys

/-! ### Eligibility for integration, and invariance of the world operations -/

/-- An entity takes an integration turn in `update_positions` exactly when it
has an active `Physical` and a transform: this mirrors the
`cm.get::<Physical>(e).and_then(force := active.then_some(..)?; t := get_id::<Transform>?)`
prefix of the loop body. -/
def eligiblePhys (w : World) (e : Nat) : Bool :=
  (match w.physical e with
   | some p => p.active
   | none => false) && (w.transform e).isSome

/-- Number of entities with an integration turn. -/
def activeCount (w : World) : Nat :=
  (w.keys.filter fun e => eligiblePhys w e).length

theorem eligiblePhys_congr (w' w : World) (e : Nat)
    (hp : (w'.physical e).map Physical.active = (w.physical e).map Physical.active)
    (ht : (w'.transform e).isSome = (w.transform e).isSome) :
    eligiblePhys w' e = eligiblePhys w e := by
  unfold eligiblePhys
  rw [ht]
  cases h1 : w'.physical e with
  | none =>
    cases h2 : w.physical e with
    | none => rfl
    | some p => rw [h1, h2] at hp; exact absurd hp (by simp)
  | some p' =>
    cases h2 : w.physical e with
    | none => rw [h1, h2] at hp; exact absurd hp (by simp)
    | some p =>
      rw [h1, h2] at hp
      have hpa : p'.active = p.active := by simpa using hp
      simp [hpa]

theorem eligiblePhys_mapCollider (w : World) (e : Nat) (f : Collider → Collider) (e' : Nat) :
    eligiblePhys (w.mapCollider e f) e' = eligiblePhys w e' :=
  eligiblePhys_congr _ _ _ (by simp) (by simp)

theorem eligiblePhys_mapTransform (w : World) (e : Nat) (f : Transform → Transform) (e' : Nat) :
    eligiblePhys (w.mapTransform e f) e' = eligiblePhys w e' :=
  eligiblePhys_congr _ _ _ (by simp)
    (by
      rw [World.transform_mapTransform]
      by_cases he : e' = e
      · rw [if_pos he]
        cases w.transform e' <;> simp
      · rw [if_neg he])

theorem eligiblePhys_mapPhysical (w : World) (e : Nat) (f : Physical → Physical)
    (hf : ∀ p, (f p).active = p.active) (e' : Nat) :
    eligiblePhys (w.mapPhysical e f) e' = eligiblePhys w e' :=
  eligiblePhys_congr _ _ _
    (by
      rw [World.physical_mapPhysical]
      by_cases he : e' = e
      · rw [if_pos he]
        cases w.physical e' <;> simp [hf]
      · rw [if_neg he])
    (by simp)

theorem eligiblePhys_resolve (g : Bool) (o cc ct : Nat) (tr : Option Vec2) (w : World)
    (e' : Nat) :
    eligiblePhys (resolve g o cc ct tr w) e' = eligiblePhys w e' := by
  unfold resolve
  rcases tr with _ | v <;> cases g <;>
    simp [eligiblePhys_mapCollider, eligiblePhys_mapTransform]

theorem keys_resolve (g : Bool) (o cc ct : Nat) (tr : Option Vec2) (w : World) :
    (resolve g o cc ct tr w).keys = w.keys := by
  unfold resolve
  rcases tr with _ | v <;> cases g <;> simp

theorem foldl_preserves {α σ : Type _} (g : σ → α → σ) (P : σ → Prop)
    (hg : ∀ s a, P s → P (g s a)) : ∀ (l : List α) (s : σ), P s → P (l.foldl g s) := by
  intro l
  induction l with
  | nil => intro s hs; exact hs
  | cons a l ih => intro s hs; exact ih _ (hg s a hs)

theorem eligiblePhys_check_collisions (pm : PhysicsManager) (w : World) (e' : Nat) :
    eligiblePhys (check_collisions pm w) e' = eligiblePhys w e' := by
  have h := foldl_preserves
    (fun w2 item =>
      resolve item.2.2.1 item.2.1.1 item.1.2.1 item.1.2.2 item.2.2.2.1
        (resolve item.2.2.1 item.1.1 item.2.1.2.1 item.2.1.2.2 item.2.2.2.2 w2))
    (fun w2 => ∀ x, eligiblePhys w2 x = eligiblePhys w x)
    (fun w2 item hw x => by rw [eligiblePhys_resolve, eligiblePhys_resolve]; exact hw x)
    (runPass (gather pm w).2 (gather pm w).1).found w (fun _ => rfl)
  exact h e'

theorem keys_check_collisions (pm : PhysicsManager) (w : World) :
    (check_collisions pm w).keys = w.keys := by
  have h := foldl_preserves
    (fun w2 item =>
      resolve item.2.2.1 item.2.1.1 item.1.2.1 item.1.2.2 item.2.2.2.1
        (resolve item.2.2.1 item.1.1 item.2.1.2.1 item.2.1.2.2 item.2.2.2.2 w2))
    (fun w2 => w2.keys = w.keys)
    (fun w2 item hw => by dsimp only; rw [keys_resolve, keys_resolve]; exact hw)
    (runPass (gather pm w).2 (gather pm w).1).found w rfl
  exact h

theorem eligiblePhys_bookkeep (e : Nat) (pos : Vec2) (δ : ℚ) (w : World) (e' : Nat) :
    eligiblePhys (bookkeep e pos δ w) e' = eligiblePhys w e' :=
  eligiblePhys_mapPhysical _ _ _
    (fun p => by cases p.lastPosition <;> rfl) e'

theorem keys_bookkeep (e : Nat) (pos : Vec2) (δ : ℚ) (w : World) :
    (bookkeep e pos δ w).keys = w.keys :=
  World.keys_mapPhysical _ _ _

theorem posStep_eligible (pm : PhysicsManager) (sa : Option Nat) (δ : ℚ) (e : Nat)
    (w : World) (c : Nat) (e' : Nat) :
    eligiblePhys ((posStep pm sa δ e w c).1) e' = eligiblePhys w e' := by
  unfold posStep
  split
  · rfl
  · split
    · rfl
    · split
      · dsimp only
        split
        · rw [eligiblePhys_bookkeep, eligiblePhys_check_collisions, eligiblePhys_mapTransform]
        · rw [eligiblePhys_check_collisions, eligiblePhys_mapTransform]
      · dsimp only
        split
        · rw [eligiblePhys_bookkeep, eligiblePhys_mapTransform]
        · rw [eligiblePhys_mapTransform]

theorem posStep_keys (pm : PhysicsManager) (sa : Option Nat) (δ : ℚ) (e : Nat)
    (w : World) (c : Nat) :
    ((posStep pm sa δ e w c).1).keys = w.keys := by
  unfold posStep
  split
  · rfl
  · split
    · rfl
    · split
      · dsimp only
        split
        · rw [keys_bookkeep, keys_check_collisions, World.keys_mapTransform]
        · rw [keys_check_collisions, World.keys_mapTransform]
      · dsimp only
        split
        · rw [keys_bookkeep, World.keys_mapTransform]
        · rw [World.keys_mapTransform]

theorem posStep_some_snd (pm : PhysicsManager) (n : Nat) (δ : ℚ) (e : Nat)
    (w : World) (c : Nat) :
    (posStep pm (some n) δ e w c).2 = c + (if eligiblePhys w e then 1 else 0) := by
  unfold posStep eligiblePhys
  cases hp : w.physical e with
  | none => simp
  | some p =>
    cases ha : p.active with
    | false => simp [ha]
    | true =>
      cases ht : w.transform e with
      | none => simp [ha, ht]
      | some t =>
        simp only [ha, ht, Option.some_bind, if_pos, Option.isSome_some, Bool.and_self,
          if_true]
        split <;> simp

theorem posStep_none_snd (pm : PhysicsManager) (δ : ℚ) (e : Nat) (w : World) (c : Nat) :
    (posStep pm none δ e w c).2 = c := by
  unfold posStep
  split
  · rfl
  · split
    · rfl
    · dsimp only
      split <;> rfl

end Phys

namespace Phys

theorem activeCount_congr (w' w : World) (hk : w'.keys = w.keys)
    (he : ∀ e, eligiblePhys w' e = eligiblePhys w e) : activeCount w' = activeCount w := by
  unfold activeCount
  rw [hk, List.filter_congr (fun a _ => he a)]

theorem update_positions_invariant (pm : PhysicsManager) (sa : Option Nat) (δ : ℚ) :
    ∀ (ks : List Nat) (w : World) (c : Nat),
      ((ks.foldl (fun wc e => posStep pm sa δ e wc.1 wc.2) (w, c)).2
          = c + (match sa with
                 | some _ => (ks.filter fun e => eligiblePhys w e).length
                 | none => 0))
      ∧ (∀ e', eligiblePhys ((ks.foldl (fun wc e => posStep pm sa δ e wc.1 wc.2) (w, c)).1) e'
            = eligiblePhys w e')
      ∧ ((ks.foldl (fun wc e => posStep pm sa δ e wc.1 wc.2) (w, c)).1).keys = w.keys := by
  intro ks
  induction ks with
  | nil =>
    intro w c
    refine ⟨?_, fun e' => rfl, rfl⟩
    cases sa <;> simp
  | cons e ks ih =>
    intro w c
    simp only [List.foldl_cons]
    rcases hr : posStep pm sa δ e w c with ⟨w1, c1⟩
    have hel : ∀ e', eligiblePhys w1 e' = eligiblePhys w e' := fun e' => by
      have h := posStep_eligible pm sa δ e w c e'
      rw [hr] at h
      exact h
    have hks : w1.keys = w.keys := by
      have h := posStep_keys pm sa δ e w c
      rw [hr] at h
      exact h
    obtain ⟨ih1, ih2, ih3⟩ := ih w1 c1
    refine ⟨?_, ?_, ?_⟩
    · rw [ih1]
      cases sa with
      | none =>
        have h2 := posStep_none_snd pm δ e w c
        rw [hr] at h2
        dsimp only at h2
        simp [h2]
      | some n =>
        have h2 := posStep_some_snd pm n δ e w c
        rw [hr] at h2
        dsimp only at h2 ⊢
        have hf : List.filter (fun a => eligiblePhys w1 a) ks
            = List.filter (fun a => eligiblePhys w a) ks :=
          List.filter_congr (fun a _ => hel a)
        rw [hf, h2, List.filter_cons]
        cases hE : eligiblePhys w e <;> simp [hE] <;> omega
    · intro e'
      rw [ih2 e', hel e']
    · rw [ih3, hks]

theorem update_positions_some_snd (pm : PhysicsManager) (n : Nat) (δ : ℚ) (w : World) :
    (update_positions pm (some n) δ w).2 = activeCount w := by
  unfold update_positions activeCount
  have h := (update_positions_invariant pm (some n) δ w.keys w 0).1
  simpa using h

theorem update_positions_none_snd (pm : PhysicsManager) (δ : ℚ) (w : World) :
    (update_positions pm none δ w).2 = 0 := by
  unfold update_positions
  have h := (update_positions_invariant pm none δ w.keys w 0).1
  simpa using h

theorem update_positions_eligible (pm : PhysicsManager) (sa : Option Nat) (δ : ℚ)
    (w : World) (e' : Nat) :
    eligiblePhys ((update_positions pm sa δ w).1) e' = eligiblePhys w e' :=
  (update_positions_invariant pm sa δ w.keys w 0).2.1 e'

theorem update_positions_keys (pm : PhysicsManager) (sa : Option Nat) (δ : ℚ) (w : World) :
    ((update_positions pm sa δ w).1).keys = w.keys :=
  (update_positions_invariant pm sa δ w.keys w 0).2.2

theorem stepLoop_snd (pm : PhysicsManager) (δ : ℚ) :
    ∀ (k : Nat) (w : World) (c : Nat),
      ((stepLoop pm δ k (w, c)).2 = c + k * activeCount w)
      ∧ (∀ e', eligiblePhys ((stepLoop pm δ k (w, c)).1) e' = eligiblePhys w e')
      ∧ ((stepLoop pm δ k (w, c)).1).keys = w.keys := by
  intro k
  induction k with
  | zero => intro w c; exact ⟨by simp [stepLoop], fun e' => rfl, rfl⟩
  | succ k ih =>
    intro w c
    unfold stepLoop
    dsimp only
    obtain ⟨ih1, ih2, ih3⟩ := ih (update_positions pm (some pm.step_amount) δ w).1
      (c + (update_positions pm (some pm.step_amount) δ w).2)
    have hac : activeCount ((update_positions pm (some pm.step_amount) δ w).1)
        = activeCount w :=
      activeCount_congr _ _ (update_positions_keys pm _ δ w)
        (update_positions_eligible pm _ δ w)
    refine ⟨?_, ?_, ?_⟩
    · rw [ih1, hac, update_positions_some_snd]
      ring
    · intro e'
      rw [ih2 e', update_positions_eligible]
    · rw [ih3, update_positions_keys]

theorem keys_clear_collisions (w : World) : (clear_collisions w).keys = w.keys := by
  unfold clear_collisions
  have h := foldl_preserves
    (fun w2 e =>
      match w2.collider e with
      | some c =>
        if c.active then w2.mapCollider e fun c => { c with collisions := [] } else w2
      | none => w2)
    (fun w2 => w2.keys = w.keys)
    (fun w2 e hw => by
      dsimp only
      split
      · split
        · rw [World.keys_mapCollider]; exact hw
        · exact hw
      · exact hw)
    w.keys w rfl
  exact h

theorem eligiblePhys_clear_collisions (w : World) (e' : Nat) :
    eligiblePhys (clear_collisions w) e' = eligiblePhys w e' := by
  unfold clear_collisions
  have h := foldl_preserves
    (fun w2 e =>
      match w2.collider e with
      | some c =>
        if c.active then w2.mapCollider e fun c => { c with collisions := [] } else w2
      | none => w2)
    (fun w2 => ∀ x, eligiblePhys w2 x = eligiblePhys w x)
    (fun w2 e hw x => by
      dsimp only
      split
      · split
        · rw [eligiblePhys_mapCollider]; exact hw x
        · exact hw x
      · exact hw x)
    w.keys w (fun _ => rfl)
  exact h e'

theorem activeCount_clear_collisions (w : World) :
    activeCount (clear_collisions w) = activeCount w :=
  activeCount_congr _ _ (keys_clear_collisions w) (eligiblePhys_clear_collisions w)

end Phys

/-! ## Scheduler fixtures and Claim C4 -/

/-- A physical component with zero force, active. -/
def pZero : Phys.Physical := ⟨⟨0, 0⟩, ⟨0, 0⟩, none, true⟩

/-- An entity with an active transform and an active physical, no collider. -/
def entPhys : Phys.Entity := ⟨none, some tZero, some pZero⟩

/-- Two physical bodies, no colliders. -/
def wTwo : Phys.World := ⟨[(0, entPhys), (1, entPhys)]⟩

/-- One physical body, no collider. -/
def wOne : Phys.World := ⟨[(0, entPhys)]⟩

/-- A manager whose counter has reached `rate` (a tick frame): rate 1,
`step_amount` 1, no delta clamp, world bounds a large box, count 1. -/
def pmTick : Phys.PhysicsManager := ⟨1, 1, none, (Phys.Box2d.new ⟨0, 0⟩ 100, 4), 1⟩

/-- The same manager one frame after construction (count 0): tick not due. -/
def pmIdle : Phys.PhysicsManager := ⟨1, 1, none, (Phys.Box2d.new ⟨0, 0⟩ 100, 4), 0⟩

/-- Claim C4 (amended): on a tick frame (`count ≥ rate`) the frame runs
`step_amount * N` detection+resolution passes, where `N` is the number of
active-and-physical bodies with a transform — one full pass after **each**
body's integration inside each sub-step (not a single pass per sub-step
after integrating every body); on a non-tick frame no detection pass runs.
`(update ...).2.2` counts the `check_collisions` invocations of the frame. -/
theorem C4_theorem (pm : Phys.PhysicsManager) (delta : ℚ) (w : Phys.World) :
    (pm.rate ≤ pm.count →
      (Phys.update pm delta w).2.2 = pm.step_amount * Phys.activeCount w) ∧
    (pm.count < pm.rate → (Phys.update pm delta w).2.2 = 0) := by
  constructor
  · intro h
    unfold Phys.update
    dsimp only
    rw [if_pos h]
    dsimp only
    have hs := (Phys.stepLoop_snd { pm with count := 0 }
      (match pm.max_delta with
       | some md => min delta md
       | none => delta) pm.step_amount (Phys.clear_collisions w) 0).1
    rw [hs, Phys.activeCount_clear_collisions]
    simp
  · intro h
    unfold Phys.update
    dsimp only
    rw [if_neg (not_le.mpr h)]
    dsimp only
    exact Phys.update_positions_none_snd _ _ _

/-- Claim C4, counterexample: with two active physical bodies and
`step_amount = 1`, a tick frame runs **two** detection+resolution passes
(one after each body's integration), not the single pass per sub-step the
claim describes. -/
theorem C4_counterexample :
    (Phys.update pmTick 1 wTwo).2.2 = 2 ∧ pmTick.step_amount = 1 := by
  constructor
  · unfold Phys.update
    dsimp only
    rw [if_pos (show pmTick.rate ≤ pmTick.count by norm_num [pmTick])]
    dsimp only
    have hs := (Phys.stepLoop_snd { pmTick with count := 0 }
      (match pmTick.max_delta with
       | some md => min 1 md
       | none => 1) pmTick.step_amount (Phys.clear_collisions wTwo) 0).1
    rw [hs, Phys.activeCount_clear_collisions]
    have hac : Phys.activeCount wTwo = 2 := by
      simp [Phys.activeCount, Phys.eligiblePhys, Phys.World.keys, Phys.World.physical,
        Phys.World.transform, Phys.World.get, wTwo, entPhys, pZero, tZero,
        Transform.translation, List.filter]
    rw [hac]
    simp [pmTick]
  · rfl

/-- Witness for `C4_theorem`, at a tick frame and at a non-tick frame with a
single body. -/
theorem C4_witness :
    (pmTick.rate ≤ pmTick.count ∧
      (Phys.update pmTick 1 wOne).2.2 = pmTick.step_amount * Phys.activeCount wOne) ∧
    (pmIdle.count < pmIdle.rate ∧ (Phys.update pmIdle 1 wOne).2.2 = 0) :=
  ⟨⟨by norm_num [pmTick], (C4_theorem pmTick 1 wOne).1 (by norm_num [pmTick])⟩,
    ⟨by norm_num [pmIdle], (C4_theorem pmIdle 1 wOne).2 (by norm_num [pmIdle])⟩⟩

/-! ## Resolve-level lemmas, Claims C6, C7, C8 -/

namespace Phys

theorem collider_resolve (g : Bool) (o cc ct : Nat) (tr : Option Vec2) (w : World)
    (e' : Nat) :
    (resolve g o cc ct tr w).collider e'
      = if e' = cc then
          (w.collider e').map fun c =>
            if o ∈ c.collisions then c else { c with collisions := c.collisions ++ [o] }
        else w.collider e' := by
  unfold resolve
  rcases tr with _ | v <;> cases g <;>
    simp [World.collider_mapCollider]

theorem transform_resolve_ghost (o cc ct : Nat) (tr : Option Vec2) (w : World) (e' : Nat) :
    (resolve true o cc ct tr w).transform e' = w.transform e' := by
  unfold resolve
  rcases tr with _ | v <;> simp

theorem transform_resolve_none (g : Bool) (o cc ct : Nat) (w : World) (e' : Nat) :
    (resolve g o cc ct none w).transform e' = w.transform e' := by
  unfold resolve
  cases g <;> simp

theorem transform_resolve_some (o cc ct : Nat) (v : Vec2) (w : World) (e' : Nat) :
    (resolve false o cc ct (some v) w).transform e'
      = if e' = ct then (w.transform e').map fun t => t.set_position (t.position + v)
        else w.transform e' := by
  unfold resolve
  simp [World.transform_mapTransform]

/-- Appending with duplicate suppression always leaves the appended id a
member. -/
theorem mem_appendResolve (c : Collider) (o : Nat) :
    o ∈ (if o ∈ c.collisions then c else { c with collisions := c.collisions ++ [o] }).collisions := by
  split
  · assumption
  · simp

/-- The ghost flag carried by a detected collision is `ac.ghost || bc.ghost`. -/
theorem detect_some_ghost (ac : Collider) (ta : Transform) (ap : Option Physical)
    (bc : Collider) (tb : Transform) (bp : Option Physical)
    (g : Bool) (atr btr : Option Vec2)
    (hd : detect (ac, ta, ap) (bc, tb, bp) = some (g, atr, btr)) :
    g = (ac.ghost || bc.ghost) := by
  unfold detect at hd
  dsimp only at hd
  split at hd
  · rcases hm : intersecting ac ta bc tb with _ | m
    · rw [hm] at hd
      cases hd
    · rw [hm] at hd
      simp at hd
      exact hd.1.symm
  · cases hd

/-- The corrections carried by a detected collision are the full `±mtv`,
each gated on the corresponding body having a `Physical` component. -/
theorem detect_some_corrections (ac : Collider) (ta : Transform) (ap : Option Physical)
    (bc : Collider) (tb : Transform) (bp : Option Physical)
    (g : Bool) (atr btr : Option Vec2) (m : Vec2)
    (hd : detect (ac, ta, ap) (bc, tb, bp) = some (g, atr, btr))
    (hm : intersecting ac ta bc tb = some m) :
    atr = ap.map (fun _ => -m) ∧ btr = bp.map (fun _ => m) := by
  unfold detect at hd
  dsimp only at hd
  split at hd
  · rw [hm] at hd
    simp at hd
    exact ⟨hd.2.1.symm, hd.2.2.symm⟩
  · cases hd

/-- The two `resolve` calls performed for one found collision in
`check_collisions` (with component cache ids coinciding with entity ids, as
in this model's store): first the B side, then the A side. -/
def resolvePair (g : Bool) (ae be : Nat) (atr btr : Option Vec2) (w : World) : World :=
  resolve g be ae ae atr (resolve g ae be be btr w)

end Phys

/-- The collision eligibility condition, exactly as the specification words
it: at least one tag of A's `layers` is in B's `layers`, no tag of A's
`ignore` is in B's `layers`, and no tag of B's `ignore` is in A's `layers`. -/
def eligiblePair (ac bc : Phys.Collider) : Bool :=
  decide ((∃ l ∈ ac.layers, l ∈ bc.layers) ∧
          (∀ l ∈ ac.ignore, l ∉ bc.layers) ∧
          (∀ l ∈ bc.ignore, l ∉ ac.layers))

/-- Claim C7: `detect` returns a collision only for eligible pairs; the
eligibility test is exactly the layers/ignore condition of the spec, and
when it fails `detect` is `none` without consulting the geometry, while when
it holds the result is determined by the SAT test alone. -/
theorem C7_theorem (ac : Phys.Collider) (ta : Transform) (ap : Option Phys.Physical)
    (bc : Phys.Collider) (tb : Transform) (bp : Option Phys.Physical) :
    (eligiblePair ac bc = false → Phys.detect (ac, ta, ap) (bc, tb, bp) = none) ∧
    (eligiblePair ac bc = true →
      Phys.detect (ac, ta, ap) (bc, tb, bp)
        = (Phys.intersecting ac ta bc tb).map fun m =>
            (ac.ghost || bc.ghost, (ap.map fun _ => -m, bp.map fun _ => m))) := by
  have hiff : ((ac.layers.any fun l => bc.layers.contains l)
      && !(ac.ignore.any fun l => bc.layers.contains l)
      && !(bc.ignore.any fun l => ac.layers.contains l)) = eligiblePair ac bc := by
    apply Bool.eq_iff_iff.mpr
    unfold eligiblePair
    simp [List.any_eq_true, and_assoc]
  constructor
  · intro h
    unfold Phys.detect
    dsimp only
    rw [hiff, h]
    simp
  · intro h
    unfold Phys.detect
    dsimp only
    rw [hiff, h]
    simp

/-- Claim C8: `resolve` preserves duplicate-freeness of every collider's
`collisions` list — the append is guarded by a membership test, so a list
without duplicates stays without duplicates through any resolution. -/
theorem C8_theorem (g : Bool) (o cc ct : Nat) (tr : Option Vec2) (w : Phys.World)
    (e : Nat) (c c' : Phys.Collider) (hc : w.collider e = some c)
    (hnd : c.collisions.Nodup)
    (hc' : (Phys.resolve g o cc ct tr w).collider e = some c') :
    c'.collisions.Nodup := by
  rw [Phys.collider_resolve] at hc'
  by_cases he : e = cc
  · rw [if_pos he, hc] at hc'
    simp at hc'
    rw [← hc']
    split
    · exact hnd
    · simp only []
      rw [List.nodup_append]
      refine ⟨hnd, List.nodup_singleton o, ?_⟩
      intro a ha hb
      simp at hb
      subst hb
      exact absurd ha (by assumption)
  · rw [if_neg he, hc] at hc'
    cases Option.some_injective _ hc'
    exact hnd

/-! ## Concrete fixtures for the physics-manager claims -/

theorem Vec2.ext_xy : ∀ (a b : Vec2), a.x = b.x → a.y = b.y → a = b
  | ⟨_, _⟩, ⟨_, _⟩, hx, hy => by cases hx; cases hy; rfl

/-- A unit square collider (centered at the local origin) with the given
layers, ignore set and ghost flag; broad-phase boundary 1, active, no
recorded collisions. -/
def sqCol (layers ignore : List Nat) (ghost : Bool) : Phys.Collider :=
  ⟨[⟨-(1/2), -(1/2)⟩, ⟨-(1/2), 1/2⟩, ⟨1/2, 1/2⟩, ⟨1/2, -(1/2)⟩],
    layers, ignore, ghost, 1, true, []⟩

/-- Translation by (1/2, 0). -/
def tHalf : Transform := Transform.translation ⟨1/2, 0⟩

/-- Translation by (10, 0). -/
def tTen : Transform := Transform.translation ⟨10, 0⟩

/-- Entity A's collider: shares tag 0 with B, and ignores its own tag 1, so
the A-A self pair fails eligibility while A-B passes. -/
def colA : Phys.Collider := sqCol [0, 1] [1] false

/-- Entity B's collider: shares tag 0 with A, and ignores its own tag 2. -/
def colB : Phys.Collider := sqCol [0, 2] [2] false

/-- A ghost variant of `colA`. -/
def colGA : Phys.Collider := sqCol [0, 1] [1] true

/-- A collider eligible against itself (layers share tag 0, nothing
ignored). -/
def colSelf : Phys.Collider := sqCol [0] [] false

/-- Two overlapping physical squares at (0,0) and (1/2,0). -/
def wC2 : Phys.World :=
  ⟨[(0, ⟨some colA, some tZero, some pZero⟩), (1, ⟨some colB, some tHalf, some pZero⟩)]⟩

/-- Two far-apart squares at (0,0) and (10,0), no physical components. -/
def wC5 : Phys.World :=
  ⟨[(0, ⟨some colA, some tZero, none⟩), (1, ⟨some colB, some tTen, none⟩)]⟩

/-- A single self-eligible square at the origin. -/
def wC10 : Phys.World := ⟨[(0, ⟨some colSelf, some tZero, none⟩)]⟩

theorem intersecting_sq_offset (l1 i1 : List Nat) (g1 : Bool) (l2 i2 : List Nat) (g2 : Bool) :
    Phys.intersecting (sqCol l1 i1 g1) tZero (sqCol l2 i2 g2) tHalf = some ⟨1/2, 0⟩ := by
  have hA : (sqCol l1 i1 g1).points.map tZero.apply
      = [⟨-(1/2), -(1/2)⟩, ⟨-(1/2), 1/2⟩, ⟨1/2, 1/2⟩, ⟨1/2, -(1/2)⟩] := by
    simp [sqCol, tZero, Transform.translation, Transform.apply]
    try norm_num
  have hB : (sqCol l2 i2 g2).points.map tHalf.apply
      = [⟨0, -(1/2)⟩, ⟨0, 1/2⟩, ⟨1, 1/2⟩, ⟨1, -(1/2)⟩] := by
    simp [sqCol, tHalf, Transform.translation, Transform.apply]
    try norm_num
  have hnA : Phys.edgeNormals [⟨-(1/2), -(1/2)⟩, ⟨-(1/2), 1/2⟩, ⟨1/2, 1/2⟩, ⟨1/2, -(1/2)⟩]
      = [⟨1, 0⟩, ⟨0, -1⟩, ⟨-1, 0⟩, ⟨0, 1⟩] := by
    simp [Phys.edgeNormals, List.range_succ]
    try norm_num
  have hnB : Phys.edgeNormals [⟨0, -(1/2)⟩, ⟨0, 1/2⟩, ⟨1, 1/2⟩, ⟨1, -(1/2)⟩]
      = [⟨1, 0⟩, ⟨0, -1⟩, ⟨-1, 0⟩, ⟨0, 1⟩] := by
    simp [Phys.edgeNormals, List.range_succ]
    try norm_num
  have ho1 : Phys.axisOverlap ⟨1, 0⟩
      [⟨-(1/2), -(1/2)⟩, ⟨-(1/2), 1/2⟩, ⟨1/2, 1/2⟩, ⟨1/2, -(1/2)⟩]
      [⟨0, -(1/2)⟩, ⟨0, 1/2⟩, ⟨1, 1/2⟩, ⟨1, -(1/2)⟩] = some (1/2, 1) := by
    simp [Phys.axisOverlap, projFoldMin, projFoldMax]
    try norm_num
  have ho2 : Phys.axisOverlap ⟨0, -1⟩
      [⟨-(1/2), -(1/2)⟩, ⟨-(1/2), 1/2⟩, ⟨1/2, 1/2⟩, ⟨1/2, -(1/2)⟩]
      [⟨0, -(1/2)⟩, ⟨0, 1/2⟩, ⟨1, 1/2⟩, ⟨1, -(1/2)⟩] = some (1, 1) := by
    simp [Phys.axisOverlap, projFoldMin, projFoldMax]
    try norm_num
  have ho3 : Phys.axisOverlap ⟨-1, 0⟩
      [⟨-(1/2), -(1/2)⟩, ⟨-(1/2), 1/2⟩, ⟨1/2, 1/2⟩, ⟨1/2, -(1/2)⟩]
      [⟨0, -(1/2)⟩, ⟨0, 1/2⟩, ⟨1, 1/2⟩, ⟨1, -(1/2)⟩] = some (1/2, -1) := by
    simp [Phys.axisOverlap, projFoldMin, projFoldMax]
    try norm_num
  have ho4 : Phys.axisOverlap ⟨0, 1⟩
      [⟨-(1/2), -(1/2)⟩, ⟨-(1/2), 1/2⟩, ⟨1/2, 1/2⟩, ⟨1/2, -(1/2)⟩]
      [⟨0, -(1/2)⟩, ⟨0, 1/2⟩, ⟨1, 1/2⟩, ⟨1, -(1/2)⟩] = some (1, 1) := by
    simp [Phys.axisOverlap, projFoldMin, projFoldMax]
    try norm_num
  unfold Phys.intersecting
  rw [hA, hB]
  dsimp only
  rw [hnA, hnB]
  rw [if_pos (by
    simp only [List.cons_append, List.nil_append, List.all_cons, List.all_nil, ho1, ho2,
      ho3, ho4, Option.isSome_some, Bool.and_true, Bool.true_and, Bool.and_self])]
  have hdata : Phys.axisData
      [⟨-(1/2), -(1/2)⟩, ⟨-(1/2), 1/2⟩, ⟨1/2, 1/2⟩, ⟨1/2, -(1/2)⟩]
      [⟨0, -(1/2)⟩, ⟨0, 1/2⟩, ⟨1, 1/2⟩, ⟨1, -(1/2)⟩]
      ([⟨1, 0⟩, ⟨0, -1⟩, ⟨-1, 0⟩, ⟨0, 1⟩] ++ [⟨1, 0⟩, ⟨0, -1⟩, ⟨-1, 0⟩, ⟨0, 1⟩])
      = [(⟨1, 0⟩, 1/2, 1), (⟨0, -1⟩, 1, 1), (⟨-1, 0⟩, 1/2, -1), (⟨0, 1⟩, 1, 1),
         (⟨1, 0⟩, 1/2, 1), (⟨0, -1⟩, 1, 1), (⟨-1, 0⟩, 1/2, -1), (⟨0, 1⟩, 1, 1)] := by
    simp only [Phys.axisData, List.cons_append, List.nil_append, List.filterMap_cons,
      List.filterMap_nil, ho1, ho2, ho3, ho4, Option.map_some']
  rw [hdata]
  dsimp only
  simp only [List.foldl_cons, List.foldl_nil]
  norm_num
  apply Vec2.ext_xy <;> norm_num

theorem intersecting_sq_self (l1 i1 : List Nat) (g1 : Bool) (l2 i2 : List Nat) (g2 : Bool) :
    Phys.intersecting (sqCol l1 i1 g1) tZero (sqCol l2 i2 g2) tZero = some ⟨1, 0⟩ := by
  have hA : (sqCol l1 i1 g1).points.map tZero.apply
      = [⟨-(1/2), -(1/2)⟩, ⟨-(1/2), 1/2⟩, ⟨1/2, 1/2⟩, ⟨1/2, -(1/2)⟩] := by
    simp [sqCol, tZero, Transform.translation, Transform.apply]
    try norm_num
  have hB : (sqCol l2 i2 g2).points.map tZero.apply
      = [⟨-(1/2), -(1/2)⟩, ⟨-(1/2), 1/2⟩, ⟨1/2, 1/2⟩, ⟨1/2, -(1/2)⟩] := by
    simp [sqCol, tZero, Transform.translation, Transform.apply]
    try norm_num
  have hnA : Phys.edgeNormals [⟨-(1/2), -(1/2)⟩, ⟨-(1/2), 1/2⟩, ⟨1/2, 1/2⟩, ⟨1/2, -(1/2)⟩]
      = [⟨1, 0⟩, ⟨0, -1⟩, ⟨-1, 0⟩, ⟨0, 1⟩] := by
    simp [Phys.edgeNormals, List.range_succ]
    try norm_num
  have ho1 : Phys.axisOverlap ⟨1, 0⟩
      [⟨-(1/2), -(1/2)⟩, ⟨-(1/2), 1/2⟩, ⟨1/2, 1/2⟩, ⟨1/2, -(1/2)⟩]
      [⟨-(1/2), -(1/2)⟩, ⟨-(1/2), 1/2⟩, ⟨1/2, 1/2⟩, ⟨1/2, -(1/2)⟩] = some (1, 1) := by
    simp [Phys.axisOverlap, projFoldMin, projFoldMax]
    try norm_num
  have ho2 : Phys.axisOverlap ⟨0, -1⟩
      [⟨-(1/2), -(1/2)⟩, ⟨-(1/2), 1/2⟩, ⟨1/2, 1/2⟩, ⟨1/2, -(1/2)⟩]
      [⟨-(1/2), -(1/2)⟩, ⟨-(1/2), 1/2⟩, ⟨1/2, 1/2⟩, ⟨1/2, -(1/2)⟩] = some (1, 1) := by
    simp [Phys.axisOverlap, projFoldMin, projFoldMax]
    try norm_num
  have ho3 : Phys.axisOverlap ⟨-1, 0⟩
      [⟨-(1/2), -(1/2)⟩, ⟨-(1/2), 1/2⟩, ⟨1/2, 1/2⟩, ⟨1/2, -(1/2)⟩]
      [⟨-(1/2), -(1/2)⟩, ⟨-(1/2), 1/2⟩, ⟨1/2, 1/2⟩, ⟨1/2, -(1/2)⟩] = some (1, 1) := by
    simp [Phys.axisOverlap, projFoldMin, projFoldMax]
    try norm_num
  have ho4 : Phys.axisOverlap ⟨0, 1⟩
      [⟨-(1/2), -(1/2)⟩, ⟨-(1/2), 1/2⟩, ⟨1/2, 1/2⟩, ⟨1/2, -(1/2)⟩]
      [⟨-(1/2), -(1/2)⟩, ⟨-(1/2), 1/2⟩, ⟨1/2, 1/2⟩, ⟨1/2, -(1/2)⟩] = some (1, 1) := by
    simp [Phys.axisOverlap, projFoldMin, projFoldMax]
    try norm_num
  unfold Phys.intersecting
  rw [hA, hB]
  dsimp only
  rw [hnA]
  rw [if_pos (by
    simp only [List.cons_append, List.nil_append, List.all_cons, List.all_nil, ho1, ho2,
      ho3, ho4, Option.isSome_some, Bool.and_true, Bool.true_and, Bool.and_self])]
  have hdata : Phys.axisData
      [⟨-(1/2), -(1/2)⟩, ⟨-(1/2), 1/2⟩, ⟨1/2, 1/2⟩, ⟨1/2, -(1/2)⟩]
      [⟨-(1/2), -(1/2)⟩, ⟨-(1/2), 1/2⟩, ⟨1/2, 1/2⟩, ⟨1/2, -(1/2)⟩]
      ([⟨1, 0⟩, ⟨0, -1⟩, ⟨-1, 0⟩, ⟨0, 1⟩] ++ [⟨1, 0⟩, ⟨0, -1⟩, ⟨-1, 0⟩, ⟨0, 1⟩])
      = [(⟨1, 0⟩, 1, 1), (⟨0, -1⟩, 1, 1), (⟨-1, 0⟩, 1, 1), (⟨0, 1⟩, 1, 1),
         (⟨1, 0⟩, 1, 1), (⟨0, -1⟩, 1, 1), (⟨-1, 0⟩, 1, 1), (⟨0, 1⟩, 1, 1)] := by
    simp only [Phys.axisData, List.cons_append, List.nil_append, List.filterMap_cons,
      List.filterMap_nil, ho1, ho2, ho3, ho4, Option.map_some']
  rw [hdata]
  dsimp only
  simp only [List.foldl_cons, List.foldl_nil]
  norm_num
  apply Vec2.ext_xy <;> norm_num

theorem intersecting_sq_far (l1 i1 : List Nat) (g1 : Bool) (l2 i2 : List Nat) (g2 : Bool) :
    Phys.intersecting (sqCol l1 i1 g1) tZero (sqCol l2 i2 g2) tTen = none := by
  have hA : (sqCol l1 i1 g1).points.map tZero.apply
      = [⟨-(1/2), -(1/2)⟩, ⟨-(1/2), 1/2⟩, ⟨1/2, 1/2⟩, ⟨1/2, -(1/2)⟩] := by
    simp [sqCol, tZero, Transform.translation, Transform.apply]
    try norm_num
  have hB : (sqCol l2 i2 g2).points.map tTen.apply
      = [⟨19/2, -(1/2)⟩, ⟨19/2, 1/2⟩, ⟨21/2, 1/2⟩, ⟨21/2, -(1/2)⟩] := by
    simp [sqCol, tTen, Transform.translation, Transform.apply]
    try norm_num
  have hnA : Phys.edgeNormals [⟨-(1/2), -(1/2)⟩, ⟨-(1/2), 1/2⟩, ⟨1/2, 1/2⟩, ⟨1/2, -(1/2)⟩]
      = [⟨1, 0⟩, ⟨0, -1⟩, ⟨-1, 0⟩, ⟨0, 1⟩] := by
    simp [Phys.edgeNormals, List.range_succ]
    try norm_num
  have ho1 : Phys.axisOverlap ⟨1, 0⟩
      [⟨-(1/2), -(1/2)⟩, ⟨-(1/2), 1/2⟩, ⟨1/2, 1/2⟩, ⟨1/2, -(1/2)⟩]
      [⟨19/2, -(1/2)⟩, ⟨19/2, 1/2⟩, ⟨21/2, 1/2⟩, ⟨21/2, -(1/2)⟩] = none := by
    simp [Phys.axisOverlap, projFoldMin, projFoldMax]
    try norm_num
  unfold Phys.intersecting
  rw [hA, hB]
  dsimp only
  rw [hnA]
  rw [if_neg (by
    simp only [List.cons_append, List.nil_append, List.all_cons, List.all_nil, ho1,
      Option.isSome_none, Bool.false_and, Bool.and_false]
    simp)]

@[simp] theorem colA_active : colA.active = true := rfl
@[simp] theorem colA_boundary : colA.boundary = 1 := rfl
@[simp] theorem colB_active : colB.active = true := rfl
@[simp] theorem colB_boundary : colB.boundary = 1 := rfl
@[simp] theorem tZero_active : tZero.active = true := rfl
@[simp] theorem tZero_position : tZero.position = ⟨0, 0⟩ := rfl
@[simp] theorem tHalf_active : tHalf.active = true := rfl
@[simp] theorem tHalf_position : tHalf.position = ⟨1/2, 0⟩ := rfl

theorem detect_AA :
    Phys.detect (colA, tZero, some pZero) (colA, tZero, some pZero) = none := by
  simp [Phys.detect, colA, sqCol]

theorem detect_BB :
    Phys.detect (colB, tHalf, some pZero) (colB, tHalf, some pZero) = none := by
  simp [Phys.detect, colB, sqCol]

theorem detect_AB :
    Phys.detect (colA, tZero, some pZero) (colB, tHalf, some pZero)
      = some (false, some ⟨-(1/2), 0⟩, some ⟨1/2, 0⟩) := by
  unfold Phys.detect
  dsimp only
  rw [if_pos (by simp [colA, colB, sqCol])]
  unfold colA colB
  rw [intersecting_sq_offset]
  simp [sqCol]
  try constructor <;> (apply Vec2.ext_xy <;> norm_num)

theorem gather_wC2 :
    Phys.gather pmTick wC2
      = ([(0, (0, colA), (0, tZero), some pZero), (1, (1, colB), (1, tHalf), some pZero)],
         ⟨Phys.Box2d.new ⟨0, 0⟩ 100, 4,
          [((⟨0, 0⟩, 0), (0, (0, colA), (0, tZero), some pZero)),
           ((⟨1/2, 0⟩, 1), (1, (1, colB), (1, tHalf), some pZero))]⟩) := by
  unfold Phys.gather wC2 pmTick
  have h1 : |(0:ℚ) - 0| ≤ 100 := by norm_num
  have h2 : |(1:ℚ)/2| ≤ 100 := by rw [abs_le]; constructor <;> norm_num
  have h3 : |(2⁻¹:ℚ)| ≤ 100 := by rw [abs_le]; constructor <;> norm_num
  simp [Phys.QuadTree.new, Phys.QuadTree.insert, Phys.Box2d.containsPoint, Phys.Box2d.new,
    h1, h2, h3]
  try norm_num

theorem runPass_wC2 :
    Phys.runPass
      ⟨Phys.Box2d.new ⟨0, 0⟩ 100, 4,
       [((⟨0, 0⟩, 0), (0, (0, colA), (0, tZero), some pZero)),
        ((⟨1/2, 0⟩, 1), (1, (1, colB), (1, tHalf), some pZero))]⟩
      [(0, (0, colA), (0, tZero), some pZero), (1, (1, colB), (1, tHalf), some pZero)]
      = ⟨[(0, 1), (1, 0)], [((0, 0), false), ((0, 1), true), ((1, 1), false)],
         [((0, 0, 0), (1, 1, 1), (false, some ⟨-(1/2), 0⟩, some ⟨1/2, 0⟩))]⟩ := by
  have h3 : |(2⁻¹:ℚ)| ≤ 100 + 1 := by rw [abs_le]; constructor <;> norm_num
  have h4 : |(1:ℚ)/2| ≤ 100 + 1 := by rw [abs_le]; constructor <;> norm_num
  have h5 : (0:ℚ) ≤ 100 + 1 := by norm_num
  unfold Phys.runPass
  simp only [List.foldl_cons, List.foldl_nil]
  simp [Phys.candidateStep, Phys.QuadTree.query, Phys.Box2d.intersects, Phys.Box2d.new,
    detect_AA, detect_AB, detect_BB, h3, h4, h5]
  exact ⟨by decide, by decide⟩

theorem checkC2 :
    ((Phys.check_collisions pmTick wC2).transform 0).map Transform.position
      = some ⟨-(1/2), 0⟩ := by
  unfold Phys.check_collisions Phys.check_collisionsFull
  rw [gather_wC2]
  dsimp only
  rw [runPass_wC2]
  simp only [List.foldl_cons, List.foldl_nil]
  rw [Phys.transform_resolve_some, if_pos rfl, Phys.transform_resolve_some,
    if_neg (by norm_num)]
  have hw : wC2.transform 0 = some tZero := by
    simp [wC2, Phys.World.transform, Phys.World.get]
  rw [hw]
  simp [Transform.set_position, Transform.position, tZero, Transform.translation]
  apply Vec2.ext_xy <;> norm_num

namespace Phys

/-- A resolve call never moves the transform of an entity other than its
`cache_transform` target. -/
theorem transform_resolve_untargeted (g : Bool) (o cc ct : Nat) (tr : Option Vec2)
    (w : World) (e' : Nat) (h : e' ≠ ct) :
    (resolve g o cc ct tr w).transform e' = w.transform e' := by
  cases g with
  | true => exact transform_resolve_ghost o cc ct tr w e'
  | false =>
    cases tr with
    | none => exact transform_resolve_none false o cc ct w e'
    | some v => rw [transform_resolve_some, if_neg h]

end Phys

/-- Claim C2 (amended): on a detected non-ghost collision the
minimum-translation vector is applied in **full** to each side — `detect`
assigns `-mtv` to A exactly when A has a `Physical` component and `+mtv` to B
exactly when B has one, and the two `resolve` calls shift each present
transform by exactly that assigned vector; a body without a `Physical`
component receives no position correction at all. -/
theorem C2_theorem (ac : Phys.Collider) (ta : Transform) (ap : Option Phys.Physical)
    (bc : Phys.Collider) (tb : Transform) (bp : Option Phys.Physical)
    (g : Bool) (atr btr : Option Vec2) (m : Vec2) (w : Phys.World) (ae be : Nat)
    (hd : Phys.detect (ac, ta, ap) (bc, tb, bp) = some (g, atr, btr))
    (hm : Phys.intersecting ac ta bc tb = some m)
    (hg : g = false) (hab : ae ≠ be) :
    (atr = ap.map fun _ => -m) ∧ (btr = bp.map fun _ => m) ∧
    (ap = none → (Phys.resolvePair g ae be atr btr w).transform ae = w.transform ae) ∧
    (ap.isSome = true →
      (Phys.resolvePair g ae be atr btr w).transform ae
        = (w.transform ae).map fun t => t.set_position (t.position + -m)) ∧
    (bp = none → (Phys.resolvePair g ae be atr btr w).transform be = w.transform be) ∧
    (bp.isSome = true →
      (Phys.resolvePair g ae be atr btr w).transform be
        = (w.transform be).map fun t => t.set_position (t.position + m)) := by
  obtain ⟨ha, hb⟩ :=
    Phys.detect_some_corrections ac ta ap bc tb bp g atr btr m hd hm
  subst hg
  unfold Phys.resolvePair
  refine ⟨ha, hb, ?_, ?_, ?_, ?_⟩
  · intro h0
    rw [h0] at ha
    have ha' : atr = none := ha
    rw [ha', Phys.transform_resolve_none,
      Phys.transform_resolve_untargeted false ae be be btr w ae hab]
  · intro h0
    obtain ⟨p, hp⟩ := Option.isSome_iff_exists.mp h0
    rw [hp] at ha
    have ha' : atr = some (-m) := ha
    rw [ha', Phys.transform_resolve_some, if_pos rfl,
      Phys.transform_resolve_untargeted false ae be be btr w ae hab]
  · intro h0
    rw [h0] at hb
    have hb' : btr = none := hb
    rw [Phys.transform_resolve_untargeted false be ae ae atr _ be (Ne.symm hab),
      hb', Phys.transform_resolve_none]
  · intro h0
    obtain ⟨p, hp⟩ := Option.isSome_iff_exists.mp h0
    rw [hp] at hb
    have hb' : btr = some m := hb
    rw [Phys.transform_resolve_untargeted false be ae ae atr _ be (Ne.symm hab),
      hb', Phys.transform_resolve_some, if_pos rfl]

/-- Claim C2, counterexample: for the two overlapping physical unit squares
at (0,0) and (1/2,0), the MTV is (1/2, 0), and after the detection pass body
A's position is (-1/2, 0) — displaced by the full `-mtv` — whereas the claim
(`-mtv/2`) would put it at (-1/4, 0). -/
theorem C2_counterexample :
    Phys.intersecting colA tZero colB tHalf = some ⟨1/2, 0⟩ ∧
    ((Phys.check_collisions pmTick wC2).transform 0).map Transform.position
        = some ⟨-(1/2), 0⟩ ∧
    ((⟨-(1/2), 0⟩ : Vec2) ≠ ⟨-(1/2) / 2, 0⟩) := by
  refine ⟨?_, checkC2, ?_⟩
  · unfold colA colB
    exact intersecting_sq_offset _ _ _ _ _ _
  · intro h
    have hx := congrArg Vec2.x h
    norm_num at hx

/-- Witness for `C2_theorem` on the concrete overlapping pair. -/
theorem C2_witness :
    Phys.detect (colA, tZero, some pZero) (colB, tHalf, some pZero)
        = some (false, some ⟨-(1/2), 0⟩, some ⟨1/2, 0⟩) ∧
    (Phys.resolvePair false 0 1 (some ⟨-(1/2), 0⟩) (some ⟨1/2, 0⟩) wC2).transform 0
        = (wC2.transform 0).map fun t =>
            t.set_position (t.position + -(⟨1/2, 0⟩ : Vec2)) := by
  have hm : Phys.intersecting colA tZero colB tHalf = some ⟨1/2, 0⟩ := by
    unfold colA colB
    exact intersecting_sq_offset _ _ _ _ _ _
  have h := C2_theorem colA tZero (some pZero) colB tHalf (some pZero) false
    (some ⟨-(1/2), 0⟩) (some ⟨1/2, 0⟩) ⟨1/2, 0⟩ wC2 0 1 detect_AB hm rfl (by norm_num)
  exact ⟨detect_AB, h.2.2.2.1 rfl⟩

/-- Witness for `C7_theorem`: `colA` is ineligible against itself (its
ignore tag 1 is among its own layers), and `detect` returns no collision. -/
theorem C7_witness :
    eligiblePair colA colA = false ∧
    Phys.detect (colA, tZero, some pZero) (colA, tZero, some pZero) = none := by
  have hf : eligiblePair colA colA = false := by simp [eligiblePair, colA, sqCol]
  exact ⟨hf, (C7_theorem colA tZero (some pZero) colA tZero (some pZero)).1 hf⟩

/-- Witness for `C8_theorem`: resolving entity 5 against the fresh collider
of `wC10` leaves its collision list `[5]`, still duplicate-free. -/
theorem C8_witness :
    wC10.collider 0 = some colSelf ∧ colSelf.collisions.Nodup ∧
    (Phys.resolve false 5 0 0 none wC10).collider 0
        = some { colSelf with collisions := [5] } ∧
    ({ colSelf with collisions := [5] } : Phys.Collider).collisions.Nodup := by
  have hc : wC10.collider 0 = some colSelf := by
    simp [wC10, Phys.World.collider, Phys.World.get]
  have hnd : colSelf.collisions.Nodup := by simp [colSelf, sqCol]
  have hc' : (Phys.resolve false 5 0 0 none wC10).collider 0
      = some { colSelf with collisions := [5] } := by
    rw [Phys.collider_resolve, if_pos rfl, hc]
    simp [colSelf, sqCol]
  exact ⟨hc, hnd, hc', C8_theorem false 5 0 0 none wC10 0 colSelf _ hc hnd hc'⟩

/-! ## Claim C10: self-pairing in the detection pass -/

@[simp] theorem colSelf_active : colSelf.active = true := rfl
@[simp] theorem colSelf_boundary : colSelf.boundary = 1 := rfl

theorem detect_selfC10 :
    Phys.detect (colSelf, tZero, none) (colSelf, tZero, none)
      = some (false, none, none) := by
  unfold Phys.detect
  dsimp only
  rw [if_pos (by simp [colSelf, sqCol])]
  unfold colSelf
  rw [intersecting_sq_self]
  simp [sqCol]

theorem gather_wC10 :
    Phys.gather pmTick wC10
      = ([(0, (0, colSelf), (0, tZero), none)],
         ⟨Phys.Box2d.new ⟨0, 0⟩ 100, 4,
          [((⟨0, 0⟩, 0), (0, (0, colSelf), (0, tZero), none))]⟩) := by
  unfold Phys.gather wC10 pmTick
  have h1 : |(0:ℚ) - 0| ≤ 100 := by norm_num
  simp [Phys.QuadTree.new, Phys.QuadTree.insert, Phys.Box2d.containsPoint,
    Phys.Box2d.new, h1]

theorem runPass_wC10 :
    Phys.runPass
      ⟨Phys.Box2d.new ⟨0, 0⟩ 100, 4, [((⟨0, 0⟩, 0), (0, (0, colSelf), (0, tZero), none))]⟩
      [(0, (0, colSelf), (0, tZero), none)]
      = ⟨[(0, 0)], [((0, 0), true)], [((0, 0, 0), (0, 0, 0), (false, none, none))]⟩ := by
  have h5 : (0:ℚ) ≤ 100 + 1 := by norm_num
  unfold Phys.runPass
  simp only [List.foldl_cons, List.foldl_nil]
  simp [Phys.candidateStep, Phys.QuadTree.query, Phys.Box2d.intersects, Phys.Box2d.new,
    detect_selfC10, h5]

/-- Claim C10: `check_collisions` pairs an entity with itself — the spatial
index query returns the querying entity's own entry, the checked-pairs test
does not exclude it, the self pair is eligible when its layers overlap
themselves and are not self-ignored, and identical shapes always intersect;
so the entity's own id is recorded in its `collisions` list. -/
theorem C10_theorem :
    ((Phys.check_collisions pmTick wC10).collider 0).map Phys.Collider.collisions
      = some [0] := by
  unfold Phys.check_collisions Phys.check_collisionsFull
  rw [gather_wC10]
  dsimp only
  rw [runPass_wC10]
  simp only [List.foldl_cons, List.foldl_nil]
  rw [Phys.collider_resolve, if_pos rfl, Phys.collider_resolve, if_pos rfl]
  have hw : wC10.collider 0 = some colSelf := by
    simp [wC10, Phys.World.collider, Phys.World.get]
  rw [hw]
  simp [colSelf, sqCol]

/-! ## Claim C5: checked-pairs bookkeeping -/

/-- Number of `detect` evaluations of the unordered pair `{a, b}` recorded
in the ghost evaluation log of a detection pass. -/
def pairEvals (log : List ((Nat × Nat) × Bool)) (a b : Nat) : Nat :=
  (log.filter fun it => decide (it.1 = (a, b) ∨ it.1 = (b, a))).length

/-- Number of collision-producing `detect` evaluations of the unordered pair
`{a, b}` in the log. -/
def pairHits (log : List ((Nat × Nat) × Bool)) (a b : Nat) : Nat :=
  (log.filter fun it => it.2 && decide (it.1 = (a, b) ∨ it.1 = (b, a))).length

theorem pairHits_append_false (log : List ((Nat × Nat) × Bool)) (p : Nat × Nat)
    (a b : Nat) : pairHits (log ++ [(p, false)]) a b = pairHits log a b := by
  simp [pairHits, List.filter_append]

theorem pairHits_append_true (log : List ((Nat × Nat) × Bool)) (p : Nat × Nat)
    (a b : Nat) :
    pairHits (log ++ [(p, true)]) a b
      = pairHits log a b + (if p = (a, b) ∨ p = (b, a) then 1 else 0) := by
  unfold pairHits
  rw [List.filter_append, List.length_append]
  congr 1
  by_cases hp : p = (a, b) ∨ p = (b, a) <;> simp [hp]

/-- The invariant maintained by the candidate phase: the unordered pair of
every successful detection is recorded in `checked`, and no pair is
detected successfully twice. -/
def passInv (s : Phys.PassState) : Prop :=
  ∀ a b : Nat, pairHits s.evals a b ≤ 1 ∧
    (1 ≤ pairHits s.evals a b → (a, b) ∈ s.checked ∨ (b, a) ∈ s.checked)

theorem candidateStep_inv (x y : Phys.Snapshot) (s : Phys.PassState) (h : passInv s) :
    passInv (Phys.candidateStep x y s) := by
  unfold Phys.candidateStep
  dsimp only
  split
  · intro a b
    refine ⟨(h a b).1, fun h1 => ?_⟩
    rcases (h a b).2 h1 with hm | hm
    · exact Or.inl (List.mem_append_left _ hm)
    · exact Or.inr (List.mem_append_left _ hm)
  · rename_i hnot
    split
    · intro a b
      exact ⟨by rw [pairHits_append_false]; exact (h a b).1,
        fun h1 => (h a b).2 (by rwa [pairHits_append_false] at h1)⟩
    · intro a b
      constructor
      · rw [pairHits_append_true]
        by_cases hp : (x.1, y.1) = (a, b) ∨ (x.1, y.1) = (b, a)
        · rw [if_pos hp]
          have h0 : pairHits s.evals a b = 0 := by
            by_contra hne
            have h1 : 1 ≤ pairHits s.evals a b := Nat.one_le_iff_ne_zero.mpr hne
            rcases (h a b).2 h1 with hm | hm
            · rcases hp with hp | hp
              · exact hnot (Or.inl (by rw [hp]; exact hm))
              · refine hnot (Or.inr ?_)
                have hx : x.1 = b := (Prod.mk.injEq _ _ _ _ ▸ hp).1
                have hy : y.1 = a := (Prod.mk.injEq _ _ _ _ ▸ hp).2
                rw [← hx, ← hy] at hm
                exact hm
            · rcases hp with hp | hp
              · refine hnot (Or.inr ?_)
                have hx : x.1 = a := (Prod.mk.injEq _ _ _ _ ▸ hp).1
                have hy : y.1 = b := (Prod.mk.injEq _ _ _ _ ▸ hp).2
                rw [← hx, ← hy] at hm
                exact hm
              · exact hnot (Or.inl (by rw [hp]; exact hm))
          rw [h0]
        · rw [if_neg hp]
          simpa using (h a b).1
      · intro h1
        by_cases hp : (x.1, y.1) = (a, b) ∨ (x.1, y.1) = (b, a)
        · rcases hp with hp | hp
          · exact Or.inl (List.mem_append_right _ (by rw [← hp]; exact List.mem_singleton.mpr rfl))
          · exact Or.inr (List.mem_append_right _ (by rw [← hp]; exact List.mem_singleton.mpr rfl))
        · rw [pairHits_append_true, if_neg hp] at h1
          rcases (h a b).2 (by omega) with hm | hm
          · exact Or.inl (List.mem_append_left _ hm)
          · exact Or.inr (List.mem_append_left _ hm)

theorem runPass_inv (tree : Phys.QuadTree) (snaps : List Phys.Snapshot) :
    passInv (Phys.runPass tree snaps) := by
  unfold Phys.runPass
  refine Phys.foldl_preserves _ passInv ?_ snaps _ ?_
  · intro s a hs
    exact Phys.foldl_preserves _ passInv (fun s b hb => candidateStep_inv a b s hb) _ s hs
  · intro a b
    exact ⟨by simp [pairHits], fun h1 => by simp [pairHits] at h1⟩

/-- Claim C5 (amended): within one detection pass the checked-pairs set
prevents a second evaluation only of pairs whose first evaluation produced a
collision — a successful detection is recorded and never re-evaluated (at
most one collision-producing evaluation per unordered pair); but a pair
whose evaluation produced no collision is **not** recorded (the `?` operator
exits before the checked-set insert), so such a pair can be SAT-evaluated
once from each direction. -/
theorem C5_theorem (pm : Phys.PhysicsManager) (w : Phys.World) (a b : Nat) :
    pairHits ((Phys.check_collisionsFull pm w).2) a b ≤ 1 := by
  unfold Phys.check_collisionsFull
  exact (runPass_inv (Phys.gather pm w).2 (Phys.gather pm w).1 a b).1

@[simp] theorem tTen_active : tTen.active = true := rfl
@[simp] theorem tTen_position : tTen.position = ⟨10, 0⟩ := rfl

theorem intersecting_sq_far_rev (l1 i1 : List Nat) (g1 : Bool) (l2 i2 : List Nat)
    (g2 : Bool) :
    Phys.intersecting (sqCol l1 i1 g1) tTen (sqCol l2 i2 g2) tZero = none := by
  have hA : (sqCol l1 i1 g1).points.map tTen.apply
      = [⟨19/2, -(1/2)⟩, ⟨19/2, 1/2⟩, ⟨21/2, 1/2⟩, ⟨21/2, -(1/2)⟩] := by
    simp [sqCol, tTen, Transform.translation, Transform.apply]
    try norm_num
  have hB : (sqCol l2 i2 g2).points.map tZero.apply
      = [⟨-(1/2), -(1/2)⟩, ⟨-(1/2), 1/2⟩, ⟨1/2, 1/2⟩, ⟨1/2, -(1/2)⟩] := by
    simp [sqCol, tZero, Transform.translation, Transform.apply]
    try norm_num
  have hnA : Phys.edgeNormals [⟨19/2, -(1/2)⟩, ⟨19/2, 1/2⟩, ⟨21/2, 1/2⟩, ⟨21/2, -(1/2)⟩]
      = [⟨1, 0⟩, ⟨0, -1⟩, ⟨-1, 0⟩, ⟨0, 1⟩] := by
    simp [Phys.edgeNormals, List.range_succ]
    try norm_num
  have ho1 : Phys.axisOverlap ⟨1, 0⟩
      [⟨19/2, -(1/2)⟩, ⟨19/2, 1/2⟩, ⟨21/2, 1/2⟩, ⟨21/2, -(1/2)⟩]
      [⟨-(1/2), -(1/2)⟩, ⟨-(1/2), 1/2⟩, ⟨1/2, 1/2⟩, ⟨1/2, -(1/2)⟩] = none := by
    simp [Phys.axisOverlap, projFoldMin, projFoldMax]
    try norm_num
  unfold Phys.intersecting
  rw [hA, hB]
  dsimp only
  rw [hnA]
  rw [if_neg (by
    simp only [List.cons_append, List.nil_append, List.all_cons, List.all_nil, ho1,
      Option.isSome_none, Bool.false_and, Bool.and_false]
    simp)]

theorem detect_AA5 :
    Phys.detect (colA, tZero, none) (colA, tZero, none) = none := by
  simp [Phys.detect, colA, sqCol]

theorem detect_BB5 :
    Phys.detect (colB, tTen, none) (colB, tTen, none) = none := by
  simp [Phys.detect, colB, sqCol]

theorem detect_AB5 :
    Phys.detect (colA, tZero, none) (colB, tTen, none) = none := by
  unfold Phys.detect
  dsimp only
  rw [if_pos (by simp [colA, colB, sqCol])]
  unfold colA colB
  rw [intersecting_sq_far]
  rfl

theorem detect_BA5 :
    Phys.detect (colB, tTen, none) (colA, tZero, none) = none := by
  unfold Phys.detect
  dsimp only
  rw [if_pos (by simp [colA, colB, sqCol])]
  unfold colA colB
  rw [intersecting_sq_far_rev]
  rfl

theorem gather_wC5 :
    Phys.gather pmTick wC5
      = ([(0, (0, colA), (0, tZero), none), (1, (1, colB), (1, tTen), none)],
         ⟨Phys.Box2d.new ⟨0, 0⟩ 100, 4,
          [((⟨0, 0⟩, 0), (0, (0, colA), (0, tZero), none)),
           ((⟨10, 0⟩, 1), (1, (1, colB), (1, tTen), none))]⟩) := by
  unfold Phys.gather wC5 pmTick
  have h1 : |(0:ℚ) - 0| ≤ 100 := by norm_num
  have h2 : |(10:ℚ)| ≤ 100 := by rw [abs_le]; constructor <;> norm_num
  have h3 : (10:ℚ) ≤ 100 := by norm_num
  simp [Phys.QuadTree.new, Phys.QuadTree.insert, Phys.Box2d.containsPoint,
    Phys.Box2d.new, h1, h2, h3]

theorem runPass_wC5 :
    Phys.runPass
      ⟨Phys.Box2d.new ⟨0, 0⟩ 100, 4,
       [((⟨0, 0⟩, 0), (0, (0, colA), (0, tZero), none)),
        ((⟨10, 0⟩, 1), (1, (1, colB), (1, tTen), none))]⟩
      [(0, (0, colA), (0, tZero), none), (1, (1, colB), (1, tTen), none)]
      = ⟨[], [((0, 0), false), ((0, 1), false), ((1, 0), false), ((1, 1), false)], []⟩ := by
  have h3 : |(10:ℚ)| ≤ 100 + 1 := by rw [abs_le]; constructor <;> norm_num
  have h5 : (0:ℚ) ≤ 100 + 1 := by norm_num
  have h6 : (10:ℚ) ≤ 100 + 1 := by norm_num
  unfold Phys.runPass
  simp only [List.foldl_cons, List.foldl_nil]
  simp [Phys.candidateStep, Phys.QuadTree.query, Phys.Box2d.intersects, Phys.Box2d.new,
    detect_AA5, detect_AB5, detect_BA5, detect_BB5, h3, h5, h6]

/-- Claim C5, counterexample: with two eligible but non-overlapping squares,
`detect` returns no collision from the A-side evaluation, the pair is then
**not** recorded in the checked set (the `?` operator skips the insert), and
the very same unordered pair is SAT-evaluated again from the B side: the
evaluation log records the pair {0, 1} twice. -/
theorem C5_counterexample :
    pairEvals ((Phys.check_collisionsFull pmTick wC5).2) 0 1 = 2 := by
  unfold Phys.check_collisionsFull
  rw [gather_wC5]
  dsimp only
  rw [runPass_wC5]
  decide

/-! ## Claim C6: ghost collisions record events but move nothing -/

/-- Claim C6: for a detected collision in which at least one collider has
`ghost` set, the two `resolve` calls leave every entity's transform
unchanged, while each of the pair's colliders receives the other entity's id
in its `collisions` list (appended with duplicate suppression). -/
theorem C6_theorem (ac : Phys.Collider) (ta : Transform) (ap : Option Phys.Physical)
    (bc : Phys.Collider) (tb : Transform) (bp : Option Phys.Physical)
    (g : Bool) (atr btr : Option Vec2) (w : Phys.World) (ae be : Nat)
    (ca cb : Phys.Collider)
    (hd : Phys.detect (ac, ta, ap) (bc, tb, bp) = some (g, atr, btr))
    (hg : (ac.ghost || bc.ghost) = true) (hab : ae ≠ be)
    (hca : w.collider ae = some ca) (hcb : w.collider be = some cb) :
    (∀ e', (Phys.resolvePair g ae be atr btr w).transform e' = w.transform e') ∧
    ((Phys.resolvePair g ae be atr btr w).collider ae
        = some (if be ∈ ca.collisions then ca
                else { ca with collisions := ca.collisions ++ [be] }) ∧
      be ∈ (if be ∈ ca.collisions then ca
            else { ca with collisions := ca.collisions ++ [be] }).collisions) ∧
    ((Phys.resolvePair g ae be atr btr w).collider be
        = some (if ae ∈ cb.collisions then cb
                else { cb with collisions := cb.collisions ++ [ae] }) ∧
      ae ∈ (if ae ∈ cb.collisions then cb
            else { cb with collisions := cb.collisions ++ [ae] }).collisions) := by
  have hgg : g = true := (Phys.detect_some_ghost ac ta ap bc tb bp g atr btr hd).trans hg
  subst hgg
  unfold Phys.resolvePair
  refine ⟨?_, ⟨?_, Phys.mem_appendResolve ca be⟩, ⟨?_, Phys.mem_appendResolve cb ae⟩⟩
  · intro e'
    rw [Phys.transform_resolve_ghost, Phys.transform_resolve_ghost]
  · rw [Phys.collider_resolve, if_pos rfl, Phys.collider_resolve, if_neg hab, hca]
    rfl
  · rw [Phys.collider_resolve, if_neg (Ne.symm hab), Phys.collider_resolve, if_pos rfl,
      hcb]
    rfl

/-- The ghost square at the origin against the plain square at (1/2, 0):
eligible, overlapping, and flagged ghost. -/
theorem detect_GAB :
    Phys.detect (colGA, tZero, some pZero) (colB, tHalf, some pZero)
      = some (true, some ⟨-(1/2), 0⟩, some ⟨1/2, 0⟩) := by
  unfold Phys.detect
  dsimp only
  rw [if_pos (by simp [colGA, colB, sqCol])]
  unfold colGA colB
  rw [intersecting_sq_offset]
  simp [sqCol]
  try constructor <;> (apply Vec2.ext_xy <;> norm_num)

/-- World for the C6 witness: a ghost square at the origin and a plain
square at (1/2, 0), both physical. -/
def wGhost : Phys.World :=
  ⟨[(0, ⟨some colGA, some tZero, some pZero⟩), (1, ⟨some colB, some tHalf, some pZero⟩)]⟩

/-- Witness for `C6_theorem` on the concrete ghost pair: both transforms are
untouched and each collider records the other's id. -/
theorem C6_witness :
    (Phys.resolvePair true 0 1 (some ⟨-(1/2), 0⟩) (some ⟨1/2, 0⟩) wGhost).transform 0
        = wGhost.transform 0 ∧
    (Phys.resolvePair true 0 1 (some ⟨-(1/2), 0⟩) (some ⟨1/2, 0⟩) wGhost).transform 1
        = wGhost.transform 1 ∧
    (Phys.resolvePair true 0 1 (some ⟨-(1/2), 0⟩) (some ⟨1/2, 0⟩) wGhost).collider 0
        = some { colGA with collisions := [1] } ∧
    (Phys.resolvePair true 0 1 (some ⟨-(1/2), 0⟩) (some ⟨1/2, 0⟩) wGhost).collider 1
        = some { colB with collisions := [0] } := by
  have hca : wGhost.collider 0 = some colGA := by
    simp [wGhost, Phys.World.collider, Phys.World.get]
  have hcb : wGhost.collider 1 = some colB := by
    simp [wGhost, Phys.World.collider, Phys.World.get]
  have h := C6_theorem colGA tZero (some pZero) colB tHalf (some pZero) true
    (some ⟨-(1/2), 0⟩) (some ⟨1/2, 0⟩) wGhost 0 1 colGA colB detect_GAB
    (by simp [colGA, sqCol]) (by norm_num) hca hcb
  refine ⟨h.1 0, h.1 1, ?_, ?_⟩
  · have := h.2.1.1
    simpa [colGA, sqCol] using this
  · have := h.2.2.1
    simpa [colB, sqCol] using this
